import Mathlib

/-!
Verification development for a small object/relationship store
(src/entities.py and src/io.py).

The embedding models:
  - the per-kind CSV tables kept by IOController (src/io.py) as lists of rows,
    where a row maps column names to cells; writing a table to CSV turns NaN
    cells into empty-string cells, and reading a table turns empty-string
    cells back into NaN cells, exactly as pandas to_csv / read_csv do;
  - entity attribute maps (the Python kwargs / _attrs dictionaries) as
    association lists from attribute name to a scalar, NaN, None or a list of
    identifier strings;
  - the class-level configuration of each RelationalEntity subclass
    (TYPE, RELATIONSHIP_ATTR, RELATIONSHIP_TYPE, AUTO_ARGS, REQUIRED_ARGS and
    whether the establish/remove connection hooks do anything) as a record;
  - Python exceptions as an Except error type; machine floats are modelled as
    rationals (the claims exercise only exact divisions).

Python raises leave earlier in-memory mutation in place; the Except embedding
drops the partially mutated objects on the error path.  No claim observes an
object after a raised exception, so this difference is not exercised.
-/

deriving instance DecidableEq for Except

namespace PT

/-- Cells of a persisted CSV table: a text value, a numeric value, or NaN
(what pandas produces for an empty cell). -/
inductive Cell where
  | str (s : String)
  | num (q : ℚ)
  | nan
deriving DecidableEq

/-- In-memory attribute values: text, numbers (int and float collapsed to one
numeric constructor), the float NaN, the Python None, and a list of
identifier strings (only ever held by the relationship attribute). -/
inductive Value where
  | str (s : String)
  | num (q : ℚ)
  | nan
  | none
  | vlist (l : List String)
deriving DecidableEq

abbrev Row := List (String × Cell)
abbrev Table := List Row
abbrev Attrs := List (String × Value)

/-- Reading a CSV file: an empty text cell comes back as NaN. -/
def readCell (c : Cell) : Cell :=
  if c = .str "" then .nan else c

/-- Writing a CSV file: a NaN cell is written as an empty text cell. -/
def saveCell (c : Cell) : Cell :=
  if c = .nan then .str "" else c

def readRow (r : Row) : Row := r.map (fun p => (p.1, readCell p.2))

def saveRow (r : Row) : Row := r.map (fun p => (p.1, saveCell p.2))

def readTable (t : Table) : Table := t.map readRow

def saveTable (t : Table) : Table := t.map saveRow

/-- Looks a column up in a row. -/
def rowGet (r : Row) (k : String) : Option Cell :=
  (r.find? (fun p => p.1 == k)).map (fun p => p.2)

/-- The index label of a row: IOController sets the index of every table to
the id column, so a row is addressed by its id cell when that cell is text
and by no string label otherwise. -/
def rowId (r : Row) : Option String :=
  match rowGet r "id" with
  | some (.str s) => some s
  | _ => Option.none

/-- Looks an attribute up in an attribute dictionary. -/
def alookup (a : Attrs) (k : String) : Option Value :=
  (a.find? (fun p => p.1 == k)).map (fun p => p.2)

/-- Python dict update with a single key: an existing key keeps its position
and gets the new value, a new key is appended at the end. -/
def aupdate : Attrs → String → Value → Attrs
  | [], k, v => [(k, v)]
  | (k', v') :: rest, k, v =>
      if k' = k then (k, v) :: rest else (k', v') :: aupdate rest k v

/-- Merging a keyword dictionary into an attribute dictionary, one key at a
time (Python dict.update). -/
def amerge (a : Attrs) (kwargs : Attrs) : Attrs :=
  kwargs.foldl (fun acc p => aupdate acc p.1 p.2) a

/-- The in-memory value of a cell read from a table (DataFrame.to_dict). -/
def valueOfCell : Cell → Value
  | .str s => .str s
  | .num q => .num q
  | .nan => .nan

/-- The cell written for an in-memory value (DataFrame construction from the
attribute dictionary).  Only scalar values reach this point: the relationship
attribute is overwritten with its joined representation by to_df, and
_check_args keeps lists and None out of every other attribute. -/
def cellOfValue : Value → Cell
  | .str s => .str s
  | .num q => .num q
  | .nan => .nan
  | .none => .nan
  | .vlist _ => .nan

/-- Splitting a character list at each separator occurrence; the empty list
gives one empty segment, exactly like the Python str.split with an explicit
separator. -/
def splitChars : List Char → List (List Char)
  | [] => [[]]
  | c :: rest =>
      match splitChars rest with
      | [] => [[]]
      | cur :: others => if c = ';' then [] :: cur :: others else (c :: cur) :: others

/-- Python str.split on the separator character (a character-level
implementation of the same function, so that proofs can evaluate it). -/
def splitOnSemi (s : String) : List String :=
  (splitChars s.toList).map List.asString

/-- The entity kinds with a table of their own (src/io.py keeps one CSV file
per kind; the abstract kind is never exercised by the claims). -/
inductive Kind where
  | person
  | group
  | payment
deriving DecidableEq

/-- The persisted state: one flat table per entity kind, holding the raw file
contents. -/
structure Store where
  person : Table
  group : Table
  payment : Table
deriving DecidableEq

def Store.tbl (s : Store) : Kind → Table
  | .person => s.person
  | .group => s.group
  | .payment => s.payment

def Store.setTbl (s : Store) : Kind → Table → Store
  | .person, t => { s with person := t }
  | .group, t => { s with group := t }
  | .payment, t => { s with payment := t }

/-- Python exceptions raised by the code paths the claims exercise. -/
inductive Err where
  | typeError (msg : String)
  | valueError (msg : String)
  | attributeError
  | indexError
  | keyError
deriving DecidableEq

/-- IOController.retrieve_entity_list: reads the CSV file of a kind. -/
def retrieve_entity_list (s : Store) (k : Kind) : Table :=
  readTable (s.tbl k)

/-- IOController.store: appends the row of a new entity and saves the file. -/
def io_store (s : Store) (k : Kind) (row : Row) : Store :=
  s.setTbl k (saveTable (retrieve_entity_list s k ++ [row]))

/-- IOController.update: drops every row labelled with the entity id (drop
raises when the label is absent and nothing catches it there), appends the
fresh row and saves the file. -/
def io_update (s : Store) (k : Kind) (id : String) (row : Row) : Except Err Store :=
  let t := retrieve_entity_list s k
  if t.any (fun r => rowId r == some id) then
    .ok (s.setTbl k (saveTable (t.filter (fun r => !(rowId r == some id)) ++ [row])))
  else
    .error (.valueError "drop-missing-label")

/-- IOController.remove_by_id: drops every row labelled with the id; the
ValueError raised by drop on a missing label is caught and ignored, so the
operation always saves the filtered table. -/
def remove_by_id (s : Store) (k : Kind) (id : String) : Store :=
  s.setTbl k (saveTable ((retrieve_entity_list s k).filter (fun r => !(rowId r == some id))))

/-- IOController.retrieve_by_id: the first row labelled with the id; iloc
raises IndexError when no row matches. -/
def retrieve_by_id (s : Store) (k : Kind) (id : String) : Except Err Row :=
  match (retrieve_entity_list s k).find? (fun r => rowId r == some id) with
  | some r => .ok r
  | Option.none => .error .indexError

/-- IOController.is_type: whether exactly one row of the kind is labelled
with the id. -/
def is_type (s : Store) (k : Kind) (id : String) : Bool :=
  ((retrieve_entity_list s k).filter (fun r => rowId r == some id)).length == 1

/-- IOController.retrieve_payments_data_for_group: the rows of the payment
table whose group_id cell equals the given id, each turned into an attribute
dictionary with the paid_for cell split on the separator; split is a string
method, so a NaN or numeric paid_for cell raises AttributeError. -/
def retrieve_payments_data_for_group (s : Store) (group_id : String) :
    Except Err (List Attrs) :=
  ((retrieve_entity_list s .payment).filter
    (fun r => rowGet r "group_id" == some (.str group_id))).mapM (fun r =>
      match alookup (r.map (fun p => (p.1, valueOfCell p.2))) "paid_for" with
      | some (Value.str sp) =>
          pure (aupdate (r.map (fun p => (p.1, valueOfCell p.2))) "paid_for"
            (Value.vlist (splitOnSemi sp)))
      | some _ => Except.error Err.attributeError
      | Option.none => Except.error Err.keyError)

/-- Class-level configuration of a RelationalEntity subclass: its TYPE tag,
RELATIONSHIP_ATTR, RELATIONSHIP_TYPE, AUTO_ARGS, REQUIRED_ARGS, and whether
its establish/remove connection hooks invoke the reciprocal operation on the
target (Person and Group override the hooks, Payment inherits the no-op
hooks of the base class). -/
structure EngineCfg where
  type : Kind
  relAttr : String
  relType : Kind
  autoArgs : List String
  requiredArgs : List String
  propagates : Bool

def personCfg : EngineCfg :=
  ⟨.person, "groups", .group, ["groups"], ["name"], true⟩

def groupCfg : EngineCfg :=
  ⟨.group, "members", .person, ["members"], ["name"], true⟩

def paymentCfg : EngineCfg :=
  ⟨.payment, "paid_for", .person,
    ["paid_for", "currency", "purpose", "comment", "location"],
    ["payer_id", "group_id", "amount"], false⟩

/-- An in-memory relational entity: its attribute dictionary and its
_relationship_list. -/
structure REntity where
  attrs : Attrs
  rels : List String
deriving DecidableEq

/-- The id property reads the id attribute; entities built by the claims
always carry a text id, the default is never hit there. -/
def REntity.eid (e : REntity) : String :=
  match alookup e.attrs "id" with
  | some (Value.str s) => s
  | _ => ""

def allowed_scalar : Value → Bool
  | .str _ => true
  | .num _ => true
  | .nan => true
  | .none => false
  | .vlist _ => false

def isVlist : Value → Bool
  | .vlist _ => true
  | _ => false

/-- RelationalEntity._check_args: the relationship attribute may be None or a
list, every other attribute must have an allowed scalar type (text, int or
float; NaN is a float). -/
def check_args (cfg : EngineCfg) (kwargs : Attrs) : Except Err Unit :=
  if kwargs.all (fun p =>
      (p.1 == cfg.relAttr && (p.2 == Value.none || isVlist p.2)) || allowed_scalar p.2)
  then .ok () else .error (.typeError "invalid-argument-type")

/-- Entity._check_required_args: every declared required argument must be
present. -/
def check_required (cfg : EngineCfg) (kwargs : Attrs) : Except Err Unit :=
  if cfg.requiredArgs.all (fun k => (alookup kwargs k).isSome)
  then .ok () else .error (.valueError "required-argument-missing")

/-- The joined representation of the relationship list written by to_df: the
ids concatenated each followed by the separator, with the last character
dropped (the Python slice up to -1). -/
def relRepr (l : List String) : String :=
  ((l.foldl (fun acc rel => acc ++ rel ++ ";") "").toList.dropLast).asString

/-- Python dict update with a single key at the row level: an existing key
keeps its position and gets the new cell, a new key is appended at the
end. -/
def rowSetCell : Row → String → Cell → Row
  | [], k, c => [(k, c)]
  | (k', c') :: rest, k, c =>
      if k' = k then (k, c) :: rest else (k', c') :: rowSetCell rest k c

/-- RelationalEntity.to_df: one row holding the attribute dictionary as
cells, with the relationship attribute overwritten in place by the joined
representation of the relationship list. -/
def to_df (cfg : EngineCfg) (e : REntity) : Row :=
  rowSetCell (e.attrs.map (fun p => (p.1, cellOfValue p.2))) cfg.relAttr
    (Cell.str (relRepr e.rels))

/-- Entity.update_in_store: IOController.update with the current row of the
entity. -/
def update_in_store (s : Store) (cfg : EngineCfg) (e : REntity) : Except Err Store :=
  io_update s cfg.type e.eid (to_df cfg e)

/-- RelationalEntity._add_entity_by_id: validates the id against the store
type-membership check of the expected target kind and appends it to the
relationship list. -/
def add_entity_by_id (cfg : EngineCfg) (s : Store) (self : REntity) (tid : String) :
    Except Err REntity :=
  if is_type s cfg.relType tid then
    .ok { self with rels := self.rels ++ [tid] }
  else
    .error (.typeError "wrong-relationship-type")

/-- Writes the relationship attribute back into the attribute dictionary and
persists the entity (the tail of add_relationship and remove_relationship). -/
def persist_rels (cfg : EngineCfg) (self : REntity) (s : Store) :
    Except Err (REntity × Store) :=
  (update_in_store s cfg
      { self with attrs := aupdate self.attrs cfg.relAttr (Value.vlist self.rels) }).map
    (fun s2 => ({ self with attrs := aupdate self.attrs cfg.relAttr (Value.vlist self.rels) }, s2))

/-- add_relationship with a single entity target and establish_connection
False: _add_entity appends the id of the target after the type check and
skips the connection hook; a TypeError raised there is caught and the
fallback _add_entity_by_id receives the entity object itself, whose
comparison with the string index labels of the table never matches, so the
fallback raises TypeError; on success the relationship attribute is updated
and the entity persisted. -/
def add_relationship_ent0 (cfg : EngineCfg) (self t : REntity) (s : Store) :
    Except Err (REntity × Store) :=
  match add_entity_by_id cfg s self t.eid with
  | .error (.typeError _) => .error (.typeError "wrong-relationship-type")
  | .error e => .error e
  | .ok self => persist_rels cfg self s

/-- The body of the try block of add_relationship for a single entity
target with establish_connection True (see add_relationship_ent). -/
def add_relationship_ent_try (cfg cfgT : EngineCfg) (self t : REntity) (s : Store) :
    Except Err (REntity × REntity × Store) := do
  let self ← add_entity_by_id cfg s self t.eid
  if cfg.propagates then do
    let (t, s) ← add_relationship_ent0 cfgT t self s
    pure (self, t, s)
  else
    pure (self, t, s)

/-- add_relationship with a single entity target and establish_connection
True: after appending the target id, the establish connection hook of Person
and Group invokes the reciprocal non-propagating add on the target (which
appends the id of self to the target list and persists the target), while
the hook of Payment is a no-op; a TypeError escaping _add_entity, including
one raised inside the reciprocal call, is caught and the fallback raises
TypeError as above; finally the relationship attribute of self is updated
and self persisted.  cfgT is the configuration of the target kind. -/
def add_relationship_ent (cfg cfgT : EngineCfg) (self t : REntity) (s : Store) :
    Except Err (REntity × REntity × Store) :=
  match add_relationship_ent_try cfg cfgT self t s with
  | .error (.typeError _) => .error (.typeError "wrong-relationship-type")
  | .error e => .error e
  | .ok (self, t, s) => do
      let (self, s) ← persist_rels cfg self s
      pure (self, t, s)

/-- add_relationship with a single id target: the empty string is falsy, so
the call silently returns without touching anything; otherwise _add_entity
raises TypeError at once (a string is not an Entity), the except block runs
_add_entity_by_id on the id, and on success the relationship attribute is
updated and the entity persisted. -/
def add_relationship_id (cfg : EngineCfg) (self : REntity) (tid : String) (s : Store) :
    Except Err (REntity × Store) :=
  if tid = "" then
    .ok (self, s)
  else do
    let self ← add_entity_by_id cfg s self tid
    persist_rels cfg self s

/-- add_relationship with a list of id targets: the empty list is falsy, so
the call silently returns; otherwise _add_entities raises TypeError at its
first element before mutating anything (a string is not an Entity), the
except block runs _add_entities_by_ids, which validates and appends each id
in order, and on success the relationship attribute is updated and the
entity persisted. -/
def add_relationship_ids (cfg : EngineCfg) (self : REntity) (l : List String) (s : Store) :
    Except Err (REntity × Store) :=
  if l = [] then
    .ok (self, s)
  else do
    let self ← l.foldlM (fun e tid => add_entity_by_id cfg s e tid) self
    persist_rels cfg self s

/-- The add_relationship call closing RelationalEntity.__init__, dispatched
on the stored value of the relationship attribute: None and falsy values
return silently, a list takes the list-of-ids path, a string takes the
single-id path; a non-NaN number and NaN are truthy non-lists that fail the
entity check and then the fallback type check (no numeric label equals a
string id), raising TypeError. -/
def add_relationship_init (cfg : EngineCfg) (self : REntity) (v : Value) (s : Store) :
    Except Err (REntity × Store) :=
  match v with
  | .none => .ok (self, s)
  | .vlist l => add_relationship_ids cfg self l s
  | .str tid => add_relationship_id cfg self tid s
  | .num q => if q = 0 then .ok (self, s) else .error (.typeError "wrong-relationship-type")
  | .nan => .error (.typeError "wrong-relationship-type")

/-- remove_relationship with remove_connection False: asserts the target id
is in the relationship list (ValueError otherwise), removes its first
occurrence, updates the relationship attribute and persists. -/
def remove_relationship0 (cfg : EngineCfg) (self t : REntity) (s : Store) :
    Except Err (REntity × Store) :=
  if t.eid ∈ self.rels then
    persist_rels cfg { self with rels := self.rels.erase t.eid } s
  else
    .error (.valueError "relationship-not-found")

/-- remove_relationship with remove_connection True: asserts membership
(ValueError otherwise), removes the first occurrence of the target id, and
the remove connection hook of Person and Group invokes the reciprocal
non-propagating remove on the target (nothing catches a ValueError raised
there); the hook of Payment is a no-op; finally the relationship attribute
of self is updated and self persisted. -/
def remove_relationship_ent (cfg cfgT : EngineCfg) (self t : REntity) (s : Store) :
    Except Err (REntity × REntity × Store) :=
  if t.eid ∈ self.rels then
    (if cfg.propagates then
        remove_relationship0 cfgT t { self with rels := self.rels.erase t.eid } s
      else .ok (t, s)) >>= fun ts =>
      (persist_rels cfg { self with rels := self.rels.erase t.eid } ts.2).map
        (fun es => (es.1, ts.1, es.2))
  else
    .error (.valueError "relationship-not-found")

/-- Entity.update_attributes: re-validates the supplied subset, merges it
into the attribute dictionary and persists the full record.  No auto-fill
runs here. -/
def update_attributes (cfg : EngineCfg) (e : REntity) (kwargs : Attrs) (s : Store) :
    Except Err (REntity × Store) :=
  check_args cfg kwargs >>= fun _ =>
    (update_in_store s cfg { e with attrs := amerge e.attrs kwargs }).map
      (fun s2 => ({ e with attrs := amerge e.attrs kwargs }, s2))

/-- A kind-specific _auto_fill hook: given the current attribute dictionary
and store and the missing attribute name, produces the default value; the
Payment hook reads (and through Group.from_store rewrites) the store. -/
abbrev AutoFill := Attrs → Store → String → Except Err (Value × Store)

/-- AutoFillEntity.__init__: every declared auto argument that the caller
omitted or passed as None gets the kind-specific default. -/
def autoFillLoop (fill : AutoFill) (kwargs : Attrs) :
    List String → Attrs → Store → Except Err (Attrs × Store)
  | [], attrs, s => .ok (attrs, s)
  | elem :: rest, attrs, s =>
      match alookup kwargs elem with
      | Option.none => do
          let (v, s) ← fill attrs s elem
          autoFillLoop fill kwargs rest (aupdate attrs elem v) s
      | some Value.none => do
          let (v, s) ← fill attrs s elem
          autoFillLoop fill kwargs rest (aupdate attrs elem v) s
      | some _ => .ok (attrs, s) >>= fun p => autoFillLoop fill kwargs rest p.1 p.2

/-- The constructor chain of a RelationalEntity subclass: validate the
argument types and required arguments, assign the fresh id when none is
supplied (Entity.__init__ with store False down the chain), run the
auto-fill pass, then append the row to the table when store is requested,
and finally re-add the relationships from the attribute map, which persists
the entity again through update_in_store whenever the list is non-empty.
The fresh uuid is passed in as newId. -/
def mkR (cfg : EngineCfg) (fill : AutoFill) (kwargs : Attrs) (newId : String)
    (doStore : Bool) (s : Store) : Except Err (REntity × Store) := do
  check_args cfg kwargs
  check_required cfg kwargs
  let (attrs, s) ← autoFillLoop fill kwargs cfg.autoArgs
    (if (alookup kwargs "id").isSome then kwargs
     else aupdate kwargs "id" (Value.str newId)) s
  match alookup attrs cfg.relAttr with
  | some v =>
      add_relationship_init cfg ⟨attrs, []⟩ v
        (if doStore then io_store s cfg.type (to_df cfg ⟨attrs, []⟩) else s)
  | Option.none => .error .keyError

/-- RelationalEntity.from_store: retrieve the raw row, decode the
relationship cell (NaN means no relationships and becomes None, a text cell
is split on the separator; a plain number is not NaN and has no split
method, raising AttributeError), then run the constructor with store
False. -/
def from_store (cfg : EngineCfg) (fill : AutoFill) (s : Store) (id : String) :
    Except Err (REntity × Store) := do
  let row ← retrieve_by_id s cfg.type id
  match alookup (row.map (fun p => (p.1, valueOfCell p.2))) cfg.relAttr with
  | some Value.nan =>
      mkR cfg fill
        (aupdate (row.map (fun p => (p.1, valueOfCell p.2))) cfg.relAttr Value.none)
        "" false s
  | some (Value.str sp) =>
      mkR cfg fill
        (aupdate (row.map (fun p => (p.1, valueOfCell p.2))) cfg.relAttr
          (Value.vlist (splitOnSemi sp)))
        "" false s
  | some _ => Except.error Err.attributeError
  | Option.none => Except.error Err.keyError

/-- The inherited AutoFillEntity._auto_fill: always None (Person and Group
do not override it). -/
def trivialFill : AutoFill := fun _ s _ => .ok (Value.none, s)

def mkPerson (kwargs : Attrs) (newId : String) (doStore : Bool) (s : Store) :
    Except Err (REntity × Store) :=
  mkR personCfg trivialFill kwargs newId doStore s

def mkGroup (kwargs : Attrs) (newId : String) (doStore : Bool) (s : Store) :
    Except Err (REntity × Store) :=
  mkR groupCfg trivialFill kwargs newId doStore s

def Person.from_store (s : Store) (id : String) : Except Err (REntity × Store) :=
  PT.from_store personCfg trivialFill s id

def Group.from_store (s : Store) (id : String) : Except Err (REntity × Store) :=
  PT.from_store groupCfg trivialFill s id

/-- The fixed placeholder defaults of the descriptive Payment fields. -/
def placeholder : String → String
  | "currency" => "AUD"
  | "purpose" => "That other thing, remember?"
  | "comment" => "You better pay me back soon"
  | "location" => "That place where we were"
  | _ => ""

/-- Payment._auto_fill: the beneficiary list defaults to the member list of
the group reconstructed from the store at creation time, the descriptive
fields default to their fixed placeholder strings. -/
def paymentFill (attrs : Attrs) (s : Store) (elem : String) :
    Except Err (Value × Store) :=
  if elem = "paid_for" then
    (Group.from_store s
        (match alookup attrs "group_id" with
         | some (Value.str g) => g
         | _ => "")).map (fun p => (Value.vlist p.1.rels, p.2))
  else
    .ok (Value.str (placeholder elem), s)

def mkPayment (kwargs : Attrs) (newId : String) (doStore : Bool) (s : Store) :
    Except Err (REntity × Store) :=
  mkR paymentCfg paymentFill kwargs newId doStore s

def Payment.from_store (s : Store) (id : String) : Except Err (REntity × Store) :=
  PT.from_store paymentCfg paymentFill s id

/-- Group.payments: reconstruct a Payment from every stored payment row
whose group reference matches, in table order, threading the store through
each construction. -/
def Group.payments (g : REntity) (s : Store) : Except Err (List REntity × Store) :=
  retrieve_payments_data_for_group s g.eid >>= fun dicts =>
    dicts.foldlM (fun (acc : List REntity × Store) dct =>
      (mkPayment dct "" false acc.2).map (fun ps => (acc.1 ++ [ps.1], ps.2))) ([], s)

/-- A pandas DataFrame used as a square ledger matrix: its row labels, its
column labels, and a valuation that is some rational on the cells the frame
holds and none (NaN, or no cell at all) elsewhere. -/
structure Mat where
  rows : List String
  cols : List String
  val : String → String → Option ℚ

/-- DataFrame(index, columns).fillna(0.): every held cell is zero. -/
def zeroMat (idx : List String) : Mat :=
  ⟨idx, idx, fun r c => if r ∈ idx ∧ c ∈ idx then some 0 else Option.none⟩

/-- DataFrame.set_value: writes the cell at the two labels; a label that is
not present yet enlarges the frame by appending it, with the other cells of
the new row or column left as NaN (already none under the valuation). -/
def mat_set_value (m : Mat) (r c : String) (q : ℚ) : Mat :=
  ⟨if r ∈ m.rows then m.rows else m.rows ++ [r],
   if c ∈ m.cols then m.cols else m.cols ++ [c],
   fun r' c' => if r' = r ∧ c' = c then some q else m.val r' c'⟩

/-- Insertion sort on strings, used to model the sorted label union pandas
produces when adding frames with differing indexes.  The claims only
exercise frames with identical indexes, where pandas keeps the order. -/
def sortedInsert (x : String) : List String → List String
  | [] => [x]
  | y :: ys => if x ≤ y then x :: y :: ys else y :: sortedInsert x ys

def sortStr : List String → List String
  | [] => []
  | x :: xs => sortedInsert x (sortStr xs)

def alignIdx (a b : List String) : List String :=
  if a = b then a else sortStr (a ++ b.filter (fun x => !(a.contains x)))

/-- DataFrame addition: the labels are aligned (identical indexes keep their
order, otherwise pandas takes the sorted union) and cells add pointwise,
with NaN wherever either side holds no number. -/
def madd (a b : Mat) : Mat :=
  ⟨alignIdx a.rows b.rows, alignIdx a.cols b.cols,
   fun r c =>
     match a.val r c, b.val r c with
     | some x, some y => some (x + y)
     | _, _ => Option.none⟩

/-- Payment.to_matrix: reconstructs the owning group from the store, builds
a zero-filled square frame over its current member list, and for each
beneficiary id sets the cell at (payer, beneficiary) to amount divided by
the beneficiary count, overwriting rather than accumulating. -/
def to_matrix (p : REntity) (s : Store) : Except Err (Mat × Store) :=
  (match alookup p.attrs "group_id" with
    | some (Value.str g) => (Except.ok g : Except Err String)
    | Option.none => Except.error Err.keyError
    | some _ => Except.error Err.indexError) >>= fun gid =>
  Group.from_store s gid >>= fun gs =>
  (match alookup p.attrs "paid_for" with
    | some (Value.vlist l) => (Except.ok l : Except Err (List String))
    | _ => Except.error (Err.typeError "not-iterable")) >>= fun pf =>
  (match alookup p.attrs "amount" with
    | some (Value.num q) => (Except.ok q : Except Err ℚ)
    | _ => Except.error (Err.typeError "unsupported-operand")) >>= fun amt =>
  Except.ok (pf.foldl (fun m b => mat_set_value m
      (match alookup p.attrs "payer_id" with
        | some (Value.str s0) => s0
        | _ => "") b (amt / (pf.length : ℚ))) (zeroMat gs.1.rels), gs.2)

/-- Group.summarize_payments: a zero-filled square frame over the in-memory
member list, plus the matrix of every reconstructed payment of the group in
turn. -/
def summarize_payments (g : REntity) (s : Store) : Except Err (Mat × Store) :=
  Group.payments g s >>= fun ps =>
    ps.1.foldlM (fun (acc : Mat × Store) p =>
      (to_matrix p acc.2).map (fun mp => (madd acc.1 mp.1, mp.2))) (zeroMat g.rels, ps.2)

/-! Spec-side observers and well-formedness predicates used to state the
claims.  They are written from the words of the specification, not from the
source, and are compared with the behaviour of the embedded operations. -/

/-- The rows a reader of the table sees under a given id. -/
def rowsFor (s : Store) (k : Kind) (id : String) : Table :=
  (retrieve_entity_list s k).filter (fun r => rowId r == some id)

/-- Whether the table of a kind holds at least one row under the id. -/
def hasRow (s : Store) (k : Kind) (id : String) : Bool :=
  (retrieve_entity_list s k).any (fun r => rowId r == some id)

/-- The member list a reader decodes from the stored row of a group: the
members cell split on the separator when it is text, and the empty list
when the cell is missing or NaN or the row is absent. -/
def storedMembers (s : Store) (gid : String) : List String :=
  match retrieve_by_id s .group gid with
  | .ok r =>
      match rowGet r "members" with
      | some (Cell.str sp) => splitOnSemi sp
      | _ => []
  | .error _ => []

/-- The canonical stored row of a group: name, id and the joined member
cell. -/
def groupRowOf (gid name mstr : String) : Row :=
  [("name", Cell.str name), ("id", Cell.str gid), ("members", Cell.str mstr)]

/-- The store after a well-formed group is reconstructed: re-adding the
decoded members update-writes the group table, moving the canonical row to
its end; the other tables are untouched. -/
def groupReloadStore (s : Store) (gid name mstr : String) : Store :=
  s.setTbl .group (saveTable ((retrieve_entity_list s .group).filter
    (fun r => !(rowId r == some gid)) ++ [groupRowOf gid name mstr]))

/-- Well-formedness of the stored state around one group: the group table
holds exactly the canonical row under gid, the members cell encodes the
member list ms both ways, the list is non-empty, and every member passes the
person type-membership check. -/
def GroupWF (s : Store) (gid name mstr : String) (ms : List String) : Prop :=
  (retrieve_entity_list s .group).filter (fun r => rowId r == some gid) =
      [groupRowOf gid name mstr] ∧
  splitOnSemi mstr = ms ∧
  relRepr ms = mstr ∧
  ms ≠ [] ∧
  (∀ m ∈ ms, is_type s .person m = true)

instance (s : Store) (gid name mstr : String) (ms : List String) :
    Decidable (GroupWF s gid name mstr ms) := by
  unfold GroupWF; infer_instance

/-- The payment rows a reader currently finds stored for a group. -/
def pmRows (s : Store) (gid : String) : Table :=
  (retrieve_entity_list s .payment).filter
    (fun r => rowGet r "group_id" == some (.str gid))

/-- The row id a reader decodes from a stored row, with an empty default. -/
def rowPid (r : Row) : String :=
  (rowId r).getD ""

/-- The payer id a reader decodes from a stored payment row. -/
def rowPayer (r : Row) : String :=
  match rowGet r "payer_id" with
  | some (Cell.str s) => s
  | _ => ""

/-- The amount a reader decodes from a stored payment row. -/
def rowAmt (r : Row) : ℚ :=
  match rowGet r "amount" with
  | some (Cell.num q) => q
  | _ => 0

/-- The raw beneficiary cell of a stored payment row. -/
def rowPStr (r : Row) : String :=
  match rowGet r "paid_for" with
  | some (Cell.str sp) => sp
  | _ => ""

/-- The beneficiary list a reader decodes from a stored payment row. -/
def rowPaidFor (r : Row) : List String :=
  match rowGet r "paid_for" with
  | some (Cell.str sp) => splitOnSemi sp
  | _ => []

/-- The attribute dictionary a reader obtains from a stored payment row: the
cells as values, with the beneficiary cell replaced by its decoded list. -/
def dictOf (r : Row) : Attrs :=
  aupdate (r.map (fun p => (p.1, valueOfCell p.2))) "paid_for"
    (Value.vlist (splitOnSemi (rowPStr r)))

/-- Well-formedness of one stored payment row of a group, as a reader of the
table sees it: the group reference matches, the row is addressable by a
non-empty id present in the payment table, payer and beneficiaries lie in
the member list, the beneficiary cell decodes to a non-empty list of valid
persons, the amount is numeric, and the descriptive columns exist. -/
def PayRowWF (s : Store) (gid : String) (ms : List String) (r : Row) : Prop :=
  rowGet r "group_id" = some (Cell.str gid) ∧
  rowId r = some (rowPid r) ∧
  rowPid r ≠ "" ∧
  hasRow s .payment (rowPid r) = true ∧
  rowGet r "payer_id" = some (Cell.str (rowPayer r)) ∧
  rowPayer r ∈ ms ∧
  rowGet r "amount" = some (Cell.num (rowAmt r)) ∧
  rowGet r "paid_for" = some (Cell.str (rowPStr r)) ∧
  rowPaidFor r ≠ [] ∧
  (∀ x ∈ rowPaidFor r, x ∈ ms) ∧
  (∀ x ∈ rowPaidFor r, is_type s .person x = true) ∧
  (rowGet r "currency").isSome ∧
  (rowGet r "purpose").isSome ∧
  (rowGet r "comment").isSome ∧
  (rowGet r "location").isSome

instance (s : Store) (gid : String) (ms : List String) (r : Row) :
    Decidable (PayRowWF s gid ms r) := by
  unfold PayRowWF; infer_instance

/-- The cell the specification assigns to one payment in the ledger matrix:
an even split from the payer to each beneficiary, zero elsewhere. -/
def contrib (r : Row) (a b : String) : ℚ :=
  if a = rowPayer r ∧ b ∈ rowPaidFor r then rowAmt r / ((rowPaidFor r).length : ℚ)
  else 0

/-- A scalar value that survives the CSV round trip unchanged: non-empty
text or a number (the empty string comes back as NaN, NaN comes back as
NaN but is not a scalar a caller would compare for identity). -/
def stableValue : Value → Bool
  | .str s => !(s == "")
  | .num _ => true
  | _ => false

/-! Concrete fixtures used by the witnesses and counterexamples. -/

def pRowA : Row := [("name", Cell.str "Ann"), ("id", Cell.str "p1"), ("groups", Cell.str "")]

def pRowB : Row := [("name", Cell.str "Bob"), ("id", Cell.str "p2"), ("groups", Cell.str "g1")]

def gRowEmpty : Row := [("name", Cell.str "Trip"), ("id", Cell.str "g1"), ("members", Cell.str "")]

def gRowAB : Row := [("name", Cell.str "Trip"), ("id", Cell.str "g1"), ("members", Cell.str "p1;p2")]

def gRowOther : Row := [("name", Cell.str "Other"), ("id", Cell.str "g2"), ("members", Cell.str "p2")]

/-- A store with one person and one group with no members. -/
def S0 : Store := ⟨[pRowA], [gRowEmpty], []⟩

/-- A store with two persons and one group whose members are both. -/
def S2 : Store := ⟨[pRowA, pRowB], [gRowAB], []⟩

/-- A store with two persons and two groups. -/
def S5 : Store := ⟨[pRowA, pRowB], [gRowAB, gRowOther], []⟩

def payRowY : Row :=
  [("payer_id", Cell.str "p1"), ("group_id", Cell.str "g1"),
   ("amount", Cell.num 10), ("id", Cell.str "y1"),
   ("paid_for", Cell.str "p1;p2"), ("currency", Cell.str "AUD"),
   ("purpose", Cell.str "That other thing, remember?"),
   ("comment", Cell.str "You better pay me back soon"),
   ("location", Cell.str "That place where we were")]

def payRowZ : Row :=
  [("payer_id", Cell.str "p2"), ("group_id", Cell.str "g2"),
   ("amount", Cell.num 5), ("id", Cell.str "z1"),
   ("paid_for", Cell.str "p2"), ("currency", Cell.str "AUD"),
   ("purpose", Cell.str "a"), ("comment", Cell.str "b"), ("location", Cell.str "c")]

/-- Two persons, two groups, one payment for each group. -/
def S6 : Store := ⟨[pRowA, pRowB], [gRowAB, gRowOther], [payRowY, payRowZ]⟩

/-- The in-memory person p1 with no groups. -/
def P0 : REntity := ⟨[("name", Value.str "Ann"), ("id", Value.str "p1"), ("groups", Value.none)], []⟩

/-- The in-memory person p1 already holding g1 in its list (an asymmetric
state: the stored group has no members). -/
def P1 : REntity := ⟨[("name", Value.str "Ann"), ("id", Value.str "p1"), ("groups", Value.vlist ["g1"])], ["g1"]⟩

/-- The in-memory group g1 with no members. -/
def G0 : REntity := ⟨[("name", Value.str "Trip"), ("id", Value.str "g1"), ("members", Value.none)], []⟩

/-- The in-memory group g1 whose members are p1 and p2. -/
def GAB : REntity := ⟨[("name", Value.str "Trip"), ("id", Value.str "g1"), ("members", Value.vlist ["p1", "p2"])], ["p1", "p2"]⟩

/-- A store with one person and no groups at all. -/
def SNoG : Store := ⟨[pRowA], [], []⟩

/-- Extracts the success value of a run, with a default for the error case;
the witnesses use it to name the concrete results of concrete runs. -/
def okOr {α : Type} (d : α) : Except Err α → α
  | .ok a => a
  | .error _ => d

/-! Basic lemmas about the CSV read/write round trip and the table
operations. -/

/-- The concrete add run used by several witnesses, and its components. -/
def addRun : Except Err (REntity × REntity × Store) :=
  add_relationship_ent personCfg groupCfg P0 G0 S0

def addP : REntity := (okOr (P0, G0, S0) addRun).1

def addG : REntity := (okOr (P0, G0, S0) addRun).2.1

def addS : Store := (okOr (P0, G0, S0) addRun).2.2

/-- The concrete remove run chained after the add run. -/
def remRun : Except Err (REntity × REntity × Store) :=
  remove_relationship_ent personCfg groupCfg addP addG addS

def remP : REntity := (okOr (P0, G0, S0) remRun).1

def remG : REntity := (okOr (P0, G0, S0) remRun).2.1

def remS : Store := (okOr (P0, G0, S0) remRun).2.2

theorem readCell_idem (c : Cell) : readCell (readCell c) = readCell c := by
  unfold readCell; split <;> simp

theorem readCell_saveCell (c : Cell) : readCell (saveCell c) = readCell c := by
  unfold readCell saveCell
  split <;> rename_i h <;> simp [h]

theorem readRow_idem (r : Row) : readRow (readRow r) = readRow r := by
  unfold readRow
  rw [List.map_map]
  exact List.map_congr_left (fun p _ => by simp [Function.comp, readCell_idem])

theorem readRow_saveRow (r : Row) : readRow (saveRow r) = readRow r := by
  unfold readRow saveRow
  rw [List.map_map]
  exact List.map_congr_left (fun p _ => by simp [Function.comp, readCell_saveCell])

theorem readTable_idem (t : Table) : readTable (readTable t) = readTable t := by
  unfold readTable
  rw [List.map_map]
  exact List.map_congr_left (fun r _ => by simp [Function.comp, readRow_idem])

theorem readTable_saveTable (t : Table) : readTable (saveTable t) = readTable t := by
  unfold readTable saveTable
  rw [List.map_map]
  exact List.map_congr_left (fun r _ => by simp [Function.comp, readRow_saveRow])

theorem readTable_append (a b : Table) : readTable (a ++ b) = readTable a ++ readTable b := by
  unfold readTable; exact List.map_append _ _ _

theorem readTable_filter (t : Table) (p : Row → Bool) :
    readTable ((readTable t).filter p) = (readTable t).filter p := by
  induction t with
  | nil => rfl
  | cons r rest ih =>
    simp only [readTable, List.map_cons, List.filter_cons] at *
    by_cases h : p (readRow r)
    · simp [h, readRow_idem, ih]
    · simp [h, ih]

theorem tbl_setTbl (s : Store) (k : Kind) (t : Table) : (s.setTbl k t).tbl k = t := by
  cases k <;> rfl

theorem setTbl_setTbl (s : Store) (k : Kind) (t t' : Table) :
    (s.setTbl k t).setTbl k t' = s.setTbl k t' := by
  cases k <;> rfl

theorem tbl_setTbl_ne (s : Store) (k k' : Kind) (t : Table) (h : k' ≠ k) :
    (s.setTbl k t).tbl k' = s.tbl k' := by
  cases k <;> cases k' <;> first | rfl | exact absurd rfl h

theorem retrieve_io_store (s : Store) (k : Kind) (row : Row) :
    retrieve_entity_list (io_store s k row) k =
      retrieve_entity_list s k ++ [readRow row] := by
  unfold io_store retrieve_entity_list
  rw [tbl_setTbl, readTable_saveTable, readTable_append]
  rw [show readTable (readTable (s.tbl k)) = readTable (s.tbl k) from readTable_idem _]
  rfl

theorem io_update_ok (s : Store) (k : Kind) (id : String) (row : Row)
    (h : hasRow s k id = true) :
    io_update s k id row =
      .ok (s.setTbl k (saveTable ((retrieve_entity_list s k).filter
        (fun r => !(rowId r == some id)) ++ [row]))) := by
  unfold io_update
  unfold hasRow at h
  simp only [h, if_true]

theorem readTable_filter_view (s : Store) (k : Kind) (p : Row → Bool) :
    readTable ((retrieve_entity_list s k).filter p) = (retrieve_entity_list s k).filter p :=
  readTable_filter (s.tbl k) p

theorem retrieve_io_update (s : Store) (k : Kind) (id : String) (row : Row) :
    retrieve_entity_list (s.setTbl k (saveTable ((retrieve_entity_list s k).filter
        (fun r => !(rowId r == some id)) ++ [row]))) k =
      (retrieve_entity_list s k).filter (fun r => !(rowId r == some id)) ++ [readRow row] := by
  show readTable _ = _
  rw [tbl_setTbl, readTable_saveTable, readTable_append]
  rw [readTable_filter_view]
  rfl

theorem remove_by_id_view (s : Store) (k : Kind) (id : String) :
    retrieve_entity_list (remove_by_id s k id) k =
      (retrieve_entity_list s k).filter (fun r => !(rowId r == some id)) := by
  show readTable _ = _
  rw [show (remove_by_id s k id).tbl k =
      saveTable ((retrieve_entity_list s k).filter (fun r => !(rowId r == some id))) from
      tbl_setTbl _ _ _]
  rw [readTable_saveTable]
  exact readTable_filter _ _

/-- C10: for every kind and id, removeById is idempotent, leaves the rows of
every other id unchanged, and when the id is absent it leaves the whole
readable table unchanged (it is total, so no error is ever raised). -/
theorem claim_C10 (s : Store) (k : Kind) (id id' : String) (h : id' ≠ id) :
    remove_by_id (remove_by_id s k id) k id = remove_by_id s k id ∧
    rowsFor (remove_by_id s k id) k id' = rowsFor s k id' ∧
    (rowsFor s k id = [] →
      retrieve_entity_list (remove_by_id s k id) k = retrieve_entity_list s k) := by
  have hview := remove_by_id_view s k id
  refine ⟨?_, ?_, ?_⟩
  · rw [show remove_by_id (remove_by_id s k id) k id =
        (remove_by_id s k id).setTbl k (saveTable ((retrieve_entity_list
          (remove_by_id s k id) k).filter (fun r => !(rowId r == some id)))) from rfl]
    rw [hview, List.filter_filter]
    rw [show (remove_by_id s k id : Store) =
        s.setTbl k (saveTable ((retrieve_entity_list s k).filter
          (fun r => !(rowId r == some id)))) from rfl]
    rw [setTbl_setTbl]
    congr 1
    congr 1
    exact List.filter_congr (fun r _ => by by_cases hr : rowId r == some id <;> simp [hr])
  · unfold rowsFor
    rw [hview, List.filter_filter]
    exact List.filter_congr (fun r _ => by
      by_cases hr : rowId r == some id'
      · have hid : rowId r = some id' := by simpa using hr
        have : (rowId r == some id) = false := by
          simp [hid, h]
        simp [hr, this]
      · simp [hr])
  · intro habs
    rw [hview]
    unfold rowsFor at habs
    rw [List.filter_eq_nil_iff] at habs
    refine List.filter_eq_self.mpr (fun r hr => ?_)
    have := habs r hr
    simpa using this

/-- C10 witness: the removal of an absent id from the concrete fixture
store, checked at a present other id. -/
theorem claim_C10_witness :
    ("p1" : String) ≠ "zzz" ∧
    (remove_by_id (remove_by_id S2 .person "zzz") .person "zzz" = remove_by_id S2 .person "zzz" ∧
     rowsFor (remove_by_id S2 .person "zzz") .person "p1" = rowsFor S2 .person "p1" ∧
     (rowsFor S2 .person "zzz" = [] →
       retrieve_entity_list (remove_by_id S2 .person "zzz") .person =
         retrieve_entity_list S2 .person)) :=
  ⟨by decide, claim_C10 S2 .person "zzz" "p1" (by decide)⟩

/-! Bind shapes of the Except monad and success characterizations of the
relationship engine. -/

theorem ebind_ok {α β : Type} (a : α) (f : α → Except Err β) :
    (Except.ok a : Except Err α) >>= f = f a := rfl

theorem ebind_err {α β : Type} (e : Err) (f : α → Except Err β) :
    (Except.error e : Except Err α) >>= f = Except.error e := rfl

theorem add_entity_by_id_eq (cfg : EngineCfg) (s : Store) (self : REntity) (tid : String) :
    add_entity_by_id cfg s self tid =
      if is_type s cfg.relType tid then .ok { self with rels := self.rels ++ [tid] }
      else .error (.typeError "wrong-relationship-type") := rfl

theorem eid_set_rels (self : REntity) (l : List String) :
    ({ self with rels := l } : REntity).eid = self.eid := rfl

theorem io_update_inv (s : Store) (k : Kind) (id : String) (row : Row) (s' : Store)
    (h : io_update s k id row = .ok s') :
    hasRow s k id = true ∧
    s' = s.setTbl k (saveTable ((retrieve_entity_list s k).filter
      (fun r => !(rowId r == some id)) ++ [row])) := by
  unfold io_update at h
  by_cases hr : (retrieve_entity_list s k).any (fun r => rowId r == some id)
  · refine ⟨hr, ?_⟩
    simp only [hr, if_true] at h
    exact (Except.ok.inj h).symm
  · simp only [hr, if_false] at h
    exact Except.noConfusion h

theorem emap_ok {α β : Type} (a : α) (f : α → β) :
    (Except.ok a : Except Err α).map f = .ok (f a) := rfl

theorem emap_err {α β : Type} (e : Err) (f : α → β) :
    (Except.error e : Except Err α).map f = (.error e : Except Err β) := rfl

theorem persist_rels_ok (cfg : EngineCfg) (self e' : REntity) (s s' : Store)
    (h : persist_rels cfg self s = .ok (e', s')) :
    e' = { self with attrs := aupdate self.attrs cfg.relAttr (Value.vlist self.rels) } ∧
    io_update s cfg.type e'.eid (to_df cfg e') = .ok s' := by
  unfold persist_rels update_in_store at h
  cases hu : io_update s cfg.type
      ({ self with attrs := aupdate self.attrs cfg.relAttr (Value.vlist self.rels) } : REntity).eid
      (to_df cfg { self with attrs := aupdate self.attrs cfg.relAttr (Value.vlist self.rels) }) with
  | error e =>
      rw [hu, emap_err] at h
      exact Except.noConfusion h
  | ok s0 =>
      rw [hu, emap_ok] at h
      simp only [Except.ok.injEq, Prod.mk.injEq] at h
      obtain ⟨h1, h2⟩ := h
      subst h1
      subst h2
      exact ⟨rfl, hu⟩

theorem add_relationship_ent0_ok (cfg : EngineCfg) (self t : REntity) (s : Store)
    (e' : REntity) (s' : Store)
    (h : add_relationship_ent0 cfg self t s = .ok (e', s')) :
    is_type s cfg.relType t.eid = true ∧
    e' = ⟨aupdate self.attrs cfg.relAttr (Value.vlist (self.rels ++ [t.eid])),
          self.rels ++ [t.eid]⟩ ∧
    io_update s cfg.type e'.eid (to_df cfg e') = .ok s' := by
  unfold add_relationship_ent0 at h
  rw [add_entity_by_id_eq] at h
  by_cases hit : is_type s cfg.relType t.eid
  · rw [if_pos hit] at h
    have hp := persist_rels_ok cfg _ e' s s' h
    exact ⟨hit, hp.1, hp.2⟩
  · rw [if_neg hit] at h
    exact Except.noConfusion h

theorem add_relationship_ent_try_ok (cfg cfgT : EngineCfg) (self t : REntity) (s : Store)
    (se tt : REntity) (ss : Store)
    (h : add_relationship_ent_try cfg cfgT self t s = .ok (se, tt, ss)) :
    se = { self with rels := self.rels ++ [t.eid] } ∧
    is_type s cfg.relType t.eid = true ∧
    ((cfg.propagates = true ∧
        add_relationship_ent0 cfgT t { self with rels := self.rels ++ [t.eid] } s =
          .ok (tt, ss)) ∨
     (cfg.propagates = false ∧ tt = t ∧ ss = s)) := by
  unfold add_relationship_ent_try at h
  rw [add_entity_by_id_eq] at h
  by_cases hit : is_type s cfg.relType t.eid
  · rw [if_pos hit, ebind_ok] at h
    by_cases hp : cfg.propagates
    · rw [if_pos hp] at h
      cases he : add_relationship_ent0 cfgT t { self with rels := self.rels ++ [t.eid] } s with
      | error e =>
          rw [he, ebind_err] at h
          exact Except.noConfusion h
      | ok pr =>
          obtain ⟨t1, s1⟩ := pr
          rw [he, ebind_ok] at h
          have h2 : Except.ok ({ self with rels := self.rels ++ [t.eid] }, t1, s1) =
              (Except.ok (se, tt, ss) : Except Err (REntity × REntity × Store)) := h
          simp only [Except.ok.injEq, Prod.mk.injEq] at h2
          obtain ⟨h3, h4, h5⟩ := h2
          subst h3
          subst h4
          subst h5
          exact ⟨rfl, hit, Or.inl ⟨hp, rfl⟩⟩
    · rw [if_neg hp] at h
      have h2 : Except.ok ({ self with rels := self.rels ++ [t.eid] }, t, s) =
          (Except.ok (se, tt, ss) : Except Err (REntity × REntity × Store)) := h
      simp only [Except.ok.injEq, Prod.mk.injEq] at h2
      obtain ⟨h3, h4, h5⟩ := h2
      subst h3
      subst h4
      subst h5
      exact ⟨rfl, hit, Or.inr ⟨by simpa using hp, rfl, rfl⟩⟩
  · rw [if_neg hit, ebind_err] at h
    exact Except.noConfusion h

theorem add_relationship_ent_ok (cfg cfgT : EngineCfg) (self t : REntity) (s : Store)
    (p' tt : REntity) (s' : Store)
    (h : add_relationship_ent cfg cfgT self t s = .ok (p', tt, s')) :
    ∃ sMid,
      is_type s cfg.relType t.eid = true ∧
      p' = ⟨aupdate self.attrs cfg.relAttr (Value.vlist (self.rels ++ [t.eid])),
            self.rels ++ [t.eid]⟩ ∧
      io_update sMid cfg.type p'.eid (to_df cfg p') = .ok s' ∧
      ((cfg.propagates = true ∧
          add_relationship_ent0 cfgT t { self with rels := self.rels ++ [t.eid] } s =
            .ok (tt, sMid)) ∨
       (cfg.propagates = false ∧ tt = t ∧ sMid = s)) := by
  unfold add_relationship_ent at h
  cases htry : add_relationship_ent_try cfg cfgT self t s with
  | error e =>
      rw [htry] at h
      cases e <;> exact Except.noConfusion h
  | ok trip =>
      obtain ⟨se, tt0, ss⟩ := trip
      rw [htry] at h
      obtain ⟨hse, hit, hbr⟩ := add_relationship_ent_try_ok cfg cfgT self t s se tt0 ss htry
      cases hpr : persist_rels cfg se ss with
      | error e =>
          have h2 : (persist_rels cfg se ss >>= fun pr =>
              (pure (pr.1, tt0, pr.2) : Except Err (REntity × REntity × Store))) =
              Except.ok (p', tt, s') := h
          rw [hpr, ebind_err] at h2
          exact Except.noConfusion h2
      | ok pr =>
          obtain ⟨pe, ps⟩ := pr
          have h2 : (persist_rels cfg se ss >>= fun pr =>
              (pure (pr.1, tt0, pr.2) : Except Err (REntity × REntity × Store))) =
              Except.ok (p', tt, s') := h
          rw [hpr, ebind_ok] at h2
          have h3 : Except.ok (pe, tt0, ps) =
              (Except.ok (p', tt, s') : Except Err (REntity × REntity × Store)) := h2
          simp only [Except.ok.injEq, Prod.mk.injEq] at h3
          obtain ⟨h4, h5, h6⟩ := h3
          subst h4
          subst h5
          subst h6
          obtain ⟨hpe, hup⟩ := persist_rels_ok cfg se pe ss ps hpr
          refine ⟨ss, hit, ?_, hup, hbr⟩
          rw [hpe, hse]

theorem addIds_rels (cfg : EngineCfg) (s : Store) (l : List String) (self se : REntity)
    (h : l.foldlM (fun e tid => add_entity_by_id cfg s e tid) self = .ok se) :
    se.rels = self.rels ++ l := by
  induction l generalizing self with
  | nil =>
      have h2 : (Except.ok self : Except Err REntity) = .ok se := h
      rw [← Except.ok.inj h2, List.append_nil]
  | cons x xs ih =>
      rw [List.foldlM_cons, add_entity_by_id_eq] at h
      by_cases hit : is_type s cfg.relType x
      · rw [if_pos hit, ebind_ok] at h
        rw [ih { self with rels := self.rels ++ [x] } h]
        simp
      · rw [if_neg hit, ebind_err] at h
        exact Except.noConfusion h

/-- C2 counterexample: adding the same group entity to the same person
twice succeeds and leaves the duplicated id g1 twice in the relationship
list, so the list does contain a duplicate identifier. -/
theorem claim_C2_cex :
    ((add_relationship_ent personCfg groupCfg P0 G0 S0).bind (fun r =>
        add_relationship_ent personCfg groupCfg r.1 r.2.1 r.2.2)).map
      (fun r => r.1.rels) = Except.ok ["g1", "g1"] ∧
    ¬ (["g1", "g1"] : List String).Nodup := by
  constructor
  · decide
  · decide

/-- C2 amended: addRelationship never checks for presence; a successful add
of an entity target appends its id at the end of the relationship list
unconditionally, and a successful add of a list of ids appends them all in
order, so order reflects insertion order but a repeated add duplicates the
identifier. -/
theorem claim_C2 (cfg cfgT : EngineCfg) (self t : REntity) (l : List String) (s : Store) :
    (∀ p' t' s', add_relationship_ent cfg cfgT self t s = .ok (p', t', s') →
        p'.rels = self.rels ++ [t.eid]) ∧
    (∀ p' s', add_relationship_ids cfg self l s = .ok (p', s') →
        p'.rels = self.rels ++ l) := by
  constructor
  · intro p' t' s' h
    obtain ⟨sMid, _, hp, _, _⟩ := add_relationship_ent_ok cfg cfgT self t s p' t' s' h
    rw [hp]
  · intro p' s' h
    unfold add_relationship_ids at h
    by_cases hl : l = []
    · rw [if_pos hl] at h
      have h2 : (self, s) = (p', s') := Except.ok.inj h
      have h3 : self = p' := congrArg Prod.fst h2
      rw [← h3, hl, List.append_nil]
    · rw [if_neg hl] at h
      cases hf : l.foldlM (fun e tid => add_entity_by_id cfg s e tid) self with
      | error e =>
          rw [hf, ebind_err] at h
          exact Except.noConfusion h
      | ok se =>
          rw [hf, ebind_ok] at h
          obtain ⟨hpe, _⟩ := persist_rels_ok cfg se p' s s' h
          rw [hpe]
          exact addIds_rels cfg s l self se hf

/-- C2 witness: a successful concrete entity add appending at the end. -/
theorem claim_C2_witness :
    add_relationship_ent personCfg groupCfg P0 G0 S0 =
      Except.ok (okOr (P0, G0, S0) (add_relationship_ent personCfg groupCfg P0 G0 S0)) ∧
    (okOr (P0, G0, S0) (add_relationship_ent personCfg groupCfg P0 G0 S0)).1.rels =
      P0.rels ++ [G0.eid] := by
  constructor
  · decide
  · exact (claim_C2 personCfg groupCfg P0 G0 ["g1"] S0).1
      (okOr (P0, G0, S0) (add_relationship_ent personCfg groupCfg P0 G0 S0)).1
      (okOr (P0, G0, S0) (add_relationship_ent personCfg groupCfg P0 G0 S0)).2.1
      (okOr (P0, G0, S0) (add_relationship_ent personCfg groupCfg P0 G0 S0)).2.2
      (by decide)

theorem retrieve_setTbl_ne (s : Store) (k k' : Kind) (t : Table) (h : k' ≠ k) :
    retrieve_entity_list (s.setTbl k t) k' = retrieve_entity_list s k' := by
  unfold retrieve_entity_list
  rw [tbl_setTbl_ne _ _ _ _ h]

/-- C4 counterexample: the empty string id resolves to no stored group, yet
adding it as a single id target raises nothing: the empty string is falsy
and add_relationship returns silently, leaving entity and store untouched. -/
theorem claim_C4_cex :
    is_type S0 .group "" = false ∧
    add_relationship_id personCfg P0 "" S0 = .ok (P0, S0) := by
  exact ⟨by decide, by decide⟩

/-- C4 amended: a target id that fails the type-membership check of the
expected kind (absent from that table, or of another kind) raises
TypeMismatchError, for a plain id target whenever the id is not the falsy
empty string (which is silently ignored), and for an entity target always. -/
theorem claim_C4 (cfg cfgT : EngineCfg) (self t : REntity) (tid : String) (s : Store)
    (hne : tid ≠ "") (hit : is_type s cfg.relType tid = false)
    (hte : is_type s cfg.relType t.eid = false) :
    add_relationship_id cfg self tid s = .error (.typeError "wrong-relationship-type") ∧
    add_relationship_ent cfg cfgT self t s = .error (.typeError "wrong-relationship-type") := by
  constructor
  · unfold add_relationship_id
    have h2 : add_entity_by_id cfg s self tid = .error (.typeError "wrong-relationship-type") := by
      rw [add_entity_by_id_eq]
      simp [hit]
    rw [if_neg hne, h2, ebind_err]
  · have htry : add_relationship_ent_try cfg cfgT self t s =
        .error (.typeError "wrong-relationship-type") := by
      unfold add_relationship_ent_try
      have h2 : add_entity_by_id cfg s self t.eid =
          .error (.typeError "wrong-relationship-type") := by
        rw [add_entity_by_id_eq]
        simp [hte]
      rw [h2, ebind_err]
    unfold add_relationship_ent
    rw [htry]

/-- C4 witness: a missing id and an entity with a missing id, both failing
with TypeMismatchError against a store without any stored group. -/
theorem claim_C4_witness :
    ("zz" : String) ≠ "" ∧ is_type SNoG .group "zz" = false ∧
    is_type SNoG .group G0.eid = false ∧
    (add_relationship_id personCfg P0 "zz" SNoG =
        .error (.typeError "wrong-relationship-type") ∧
     add_relationship_ent personCfg groupCfg P0 G0 SNoG =
        .error (.typeError "wrong-relationship-type")) :=
  ⟨by decide, by decide, by decide,
   claim_C4 personCfg groupCfg P0 G0 "zz" SNoG (by decide) (by decide) (by decide)⟩

/-- C1 counterexample: adding the group by its plain id completes without
error and updates only the person side; the person list gains g1 but the
stored member list of g1 still lacks p1, so the biconditional of the claim
fails for a single-id target. -/
theorem claim_C1_cex :
    (add_relationship_id personCfg P0 "g1" S0).map
      (fun r => (decide ("g1" ∈ r.1.rels), decide ("p1" ∈ storedMembers r.2 "g1"))) =
      Except.ok (true, false) := by
  decide

/-- C1 amended: for entity-reference targets the symmetric protocol holds
from either side: a completed add leaves the id of the target in the list
of the initiator and the id of the initiator in the list of the target (so
the biconditional membership invariant holds for the pair), and the last
row of each of the two tables is the persisted image of the corresponding
updated entity.  A plain-id target performs no reciprocal update and can
break the invariant, as the counterexample shows. -/
theorem claim_C1 (p g : REntity) (s : Store) :
    (∀ p' g' s', add_relationship_ent personCfg groupCfg p g s = .ok (p', g', s') →
        (g.eid ∈ p'.rels ∧ p.eid ∈ g'.rels) ∧
        (retrieve_entity_list s' .person).getLast? = some (readRow (to_df personCfg p')) ∧
        (retrieve_entity_list s' .group).getLast? = some (readRow (to_df groupCfg g'))) ∧
    (∀ g' p' s', add_relationship_ent groupCfg personCfg g p s = .ok (g', p', s') →
        (p.eid ∈ g'.rels ∧ g.eid ∈ p'.rels) ∧
        (retrieve_entity_list s' .group).getLast? = some (readRow (to_df groupCfg g')) ∧
        (retrieve_entity_list s' .person).getLast? = some (readRow (to_df personCfg p'))) := by
  constructor
  · intro p' g' s' h
    obtain ⟨sMid, hit, hp, hup, hbr⟩ :=
      add_relationship_ent_ok personCfg groupCfg p g s p' g' s' h
    cases hbr with
    | inr hfalse =>
        obtain ⟨hf, _⟩ := hfalse
        simp [personCfg] at hf
    | inl hprop =>
        obtain ⟨_, he0⟩ := hprop
        obtain ⟨hitP, hg, hupg⟩ :=
          add_relationship_ent0_ok groupCfg g { p with rels := p.rels ++ [g.eid] } s g' sMid he0
        obtain ⟨_, hs'⟩ := io_update_inv sMid .person p'.eid (to_df personCfg p') s' hup
        obtain ⟨_, hsMid⟩ := io_update_inv s .group g'.eid (to_df groupCfg g') sMid hupg
        refine ⟨⟨?_, ?_⟩, ?_, ?_⟩
        · rw [hp]
          simp
        · rw [hg]
          simp [eid_set_rels]
        · rw [hs', retrieve_io_update]
          exact List.getLast?_concat _
        · rw [hs']
          rw [retrieve_setTbl_ne _ _ _ _ (by decide)]
          rw [hsMid, retrieve_io_update]
          exact List.getLast?_concat _
  · intro g' p' s' h
    obtain ⟨sMid, hit, hgshape, hup, hbr⟩ :=
      add_relationship_ent_ok groupCfg personCfg g p s g' p' s' h
    cases hbr with
    | inr hfalse =>
        obtain ⟨hf, _⟩ := hfalse
        simp [groupCfg] at hf
    | inl hprop =>
        obtain ⟨_, he0⟩ := hprop
        obtain ⟨hitP, hpshape, hupp⟩ :=
          add_relationship_ent0_ok personCfg p { g with rels := g.rels ++ [p.eid] } s p' sMid he0
        obtain ⟨_, hs'⟩ := io_update_inv sMid .group g'.eid (to_df groupCfg g') s' hup
        obtain ⟨_, hsMid⟩ := io_update_inv s .person p'.eid (to_df personCfg p') sMid hupp
        refine ⟨⟨?_, ?_⟩, ?_, ?_⟩
        · rw [hgshape]
          simp
        · rw [hpshape]
          simp [eid_set_rels]
        · rw [hs', retrieve_io_update]
          exact List.getLast?_concat _
        · rw [hs']
          rw [retrieve_setTbl_ne _ _ _ _ (by decide)]
          rw [hsMid, retrieve_io_update]
          exact List.getLast?_concat _

/-- C1 witness: a completed concrete add from the person side, with both
memberships established and both rows persisted. -/
theorem claim_C1_witness :
    add_relationship_ent personCfg groupCfg P0 G0 S0 =
      Except.ok (okOr (P0, G0, S0) (add_relationship_ent personCfg groupCfg P0 G0 S0)) ∧
    ((G0.eid ∈ (okOr (P0, G0, S0) (add_relationship_ent personCfg groupCfg P0 G0 S0)).1.rels ∧
      P0.eid ∈ (okOr (P0, G0, S0) (add_relationship_ent personCfg groupCfg P0 G0 S0)).2.1.rels) ∧
     (retrieve_entity_list (okOr (P0, G0, S0)
        (add_relationship_ent personCfg groupCfg P0 G0 S0)).2.2 .person).getLast? =
       some (readRow (to_df personCfg (okOr (P0, G0, S0)
        (add_relationship_ent personCfg groupCfg P0 G0 S0)).1)) ∧
     (retrieve_entity_list (okOr (P0, G0, S0)
        (add_relationship_ent personCfg groupCfg P0 G0 S0)).2.2 .group).getLast? =
       some (readRow (to_df groupCfg (okOr (P0, G0, S0)
        (add_relationship_ent personCfg groupCfg P0 G0 S0)).2.1))) := by
  constructor
  · decide
  · exact (claim_C1 P0 G0 S0).1
      (okOr (P0, G0, S0) (add_relationship_ent personCfg groupCfg P0 G0 S0)).1
      (okOr (P0, G0, S0) (add_relationship_ent personCfg groupCfg P0 G0 S0)).2.1
      (okOr (P0, G0, S0) (add_relationship_ent personCfg groupCfg P0 G0 S0)).2.2
      (by decide)

/-! Dictionary lemmas. -/

theorem alookup_aupdate_self (a : Attrs) (k : String) (v : Value) :
    alookup (aupdate a k v) k = some v := by
  induction a with
  | nil => simp [aupdate, alookup, List.find?]
  | cons p rest ih =>
      obtain ⟨k', v'⟩ := p
      unfold aupdate
      by_cases h : k' = k
      · rw [if_pos h]
        simp [alookup, List.find?]
      · rw [if_neg h]
        unfold alookup at ih ⊢
        simp only [List.find?]
        have : (k' == k) = false := by simp [h]
        rw [this]
        exact ih

theorem alookup_aupdate_ne (a : Attrs) (k k' : String) (v : Value) (h : k' ≠ k) :
    alookup (aupdate a k v) k' = alookup a k' := by
  induction a with
  | nil =>
      simp [aupdate, alookup, List.find?]
      rw [show (k == k') = false from beq_eq_false_iff_ne.mpr (Ne.symm h)]
  | cons p rest ih =>
      obtain ⟨k0, v0⟩ := p
      unfold aupdate
      by_cases h0 : k0 = k
      · rw [if_pos h0]
        unfold alookup
        simp only [List.find?]
        have h1 : (k == k') = false := beq_eq_false_iff_ne.mpr (Ne.symm h)
        have h2 : (k0 == k') = false := by
          rw [h0]
          exact h1
        rw [h1, h2]
      · rw [if_neg h0]
        unfold alookup at ih ⊢
        simp only [List.find?]
        by_cases h1 : k0 == k'
        · rw [h1]
        · simp only [h1]
          exact ih

theorem eid_attrs_aupdate (e : REntity) (k : String) (v : Value) (l : List String)
    (h : k ≠ "id") :
    (⟨aupdate e.attrs k v, l⟩ : REntity).eid = e.eid := by
  unfold REntity.eid
  rw [alookup_aupdate_ne _ _ _ _ (Ne.symm h)]

/-! Characterizations of the remove flows and claim C3. -/

theorem remove_relationship0_ok (cfg : EngineCfg) (self t : REntity) (s : Store)
    (e' : REntity) (s' : Store)
    (h : remove_relationship0 cfg self t s = .ok (e', s')) :
    t.eid ∈ self.rels ∧
    e' = ⟨aupdate self.attrs cfg.relAttr (Value.vlist (self.rels.erase t.eid)),
          self.rels.erase t.eid⟩ ∧
    io_update s cfg.type e'.eid (to_df cfg e') = .ok s' := by
  unfold remove_relationship0 at h
  by_cases hm : t.eid ∈ self.rels
  · rw [if_pos hm] at h
    obtain ⟨hpe, hup⟩ := persist_rels_ok cfg _ e' s s' h
    exact ⟨hm, hpe, hup⟩
  · rw [if_neg hm] at h
    exact Except.noConfusion h

theorem remove_relationship_ent_ok (cfg cfgT : EngineCfg) (self t : REntity) (s : Store)
    (e' t' : REntity) (s' : Store)
    (h : remove_relationship_ent cfg cfgT self t s = .ok (e', t', s')) :
    t.eid ∈ self.rels ∧
    e' = ⟨aupdate self.attrs cfg.relAttr (Value.vlist (self.rels.erase t.eid)),
          self.rels.erase t.eid⟩ ∧
    ∃ sMid, io_update sMid cfg.type e'.eid (to_df cfg e') = .ok s' ∧
      ((cfg.propagates = true ∧
          remove_relationship0 cfgT t { self with rels := self.rels.erase t.eid } s =
            .ok (t', sMid)) ∨
       (cfg.propagates = false ∧ t' = t ∧ sMid = s)) := by
  unfold remove_relationship_ent at h
  by_cases hm : t.eid ∈ self.rels
  · rw [if_pos hm] at h
    by_cases hp : cfg.propagates
    · rw [if_pos hp] at h
      cases hrem : remove_relationship0 cfgT t { self with rels := self.rels.erase t.eid } s with
      | error e =>
          rw [hrem, ebind_err] at h
          exact Except.noConfusion h
      | ok ts =>
          obtain ⟨t1, s1⟩ := ts
          rw [hrem, ebind_ok] at h
          cases hpr : persist_rels cfg { self with rels := self.rels.erase t.eid } s1 with
          | error e =>
              rw [hpr, emap_err] at h
              exact Except.noConfusion h
          | ok es =>
              obtain ⟨e1, s2⟩ := es
              rw [hpr, emap_ok] at h
              have h2 : Except.ok (e1, t1, s2) =
                  (Except.ok (e', t', s') : Except Err (REntity × REntity × Store)) := h
              simp only [Except.ok.injEq, Prod.mk.injEq] at h2
              obtain ⟨h3, h4, h5⟩ := h2
              subst h3
              subst h4
              subst h5
              obtain ⟨hpe, hup⟩ := persist_rels_ok cfg _ e1 s1 s2 hpr
              exact ⟨hm, hpe, s1, hup, Or.inl ⟨hp, rfl⟩⟩
    · rw [if_neg hp, ebind_ok] at h
      cases hpr : persist_rels cfg { self with rels := self.rels.erase t.eid } s with
      | error e =>
          rw [hpr, emap_err] at h
          exact Except.noConfusion h
      | ok es =>
          obtain ⟨e1, s2⟩ := es
          rw [hpr, emap_ok] at h
          have h2 : Except.ok (e1, t, s2) =
              (Except.ok (e', t', s') : Except Err (REntity × REntity × Store)) := h
          simp only [Except.ok.injEq, Prod.mk.injEq] at h2
          obtain ⟨h3, h4, h5⟩ := h2
          subst h3
          subst h4
          subst h5
          obtain ⟨hpe, hup⟩ := persist_rels_ok cfg _ e1 s s2 hpr
          refine ⟨hm, hpe, s, hup, Or.inr ⟨by simpa using hp, rfl, rfl⟩⟩
  · rw [if_neg hm] at h
    exact Except.noConfusion h

/-- C3 counterexample: in an asymmetric state, the target id is in the list
of the initiator yet the remove raises RelationshipNotFoundError, because
the reciprocal remove asserts membership on the other side and fails; the
only-if direction of the claim is false. -/
theorem claim_C3_cex :
    ("g1" ∈ P1.rels) ∧
    remove_relationship_ent personCfg groupCfg P1 G0 S2 =
      .error (.valueError "relationship-not-found") := by
  exact ⟨by decide, by decide⟩

/-- C3 amended: removeRelationship raises RelationshipNotFoundError
whenever the target id is not in the list of the initiator (but the
converse only-if fails: with propagation the reciprocal remove can raise
the same error even when the target id is present); on success the first
occurrence of the target id is erased and the initiator persisted, and with
propagation the id of the initiator is erased from the target list; after a
completed add of an entity target followed by a completed remove, starting
from lists holding neither id, neither list contains the id of the other. -/
theorem claim_C3 :
    (∀ (cfg cfgT : EngineCfg) (self t : REntity) (s : Store),
        t.eid ∉ self.rels →
        remove_relationship_ent cfg cfgT self t s =
          .error (.valueError "relationship-not-found")) ∧
    (∀ (cfg cfgT : EngineCfg) (self t e' t' : REntity) (s s' : Store),
        remove_relationship_ent cfg cfgT self t s = .ok (e', t', s') →
        t.eid ∈ self.rels ∧
        e'.rels = self.rels.erase t.eid ∧
        (retrieve_entity_list s' cfg.type).getLast? = some (readRow (to_df cfg e')) ∧
        (cfg.propagates = true → t'.rels = t.rels.erase self.eid)) ∧
    (∀ (p g p1 g1 p2 g2 : REntity) (s s1 s2 : Store),
        add_relationship_ent personCfg groupCfg p g s = .ok (p1, g1, s1) →
        remove_relationship_ent personCfg groupCfg p1 g1 s1 = .ok (p2, g2, s2) →
        g.eid ∉ p.rels → p.eid ∉ g.rels →
        g.eid ∉ p2.rels ∧ p.eid ∉ g2.rels) := by
  have habsent : ∀ (cfg cfgT : EngineCfg) (self t : REntity) (s : Store),
      t.eid ∉ self.rels →
      remove_relationship_ent cfg cfgT self t s =
        .error (.valueError "relationship-not-found") := by
    intro cfg cfgT self t s hm
    unfold remove_relationship_ent
    rw [if_neg hm]
  have hsucc : ∀ (cfg cfgT : EngineCfg) (self t e' t' : REntity) (s s' : Store),
      remove_relationship_ent cfg cfgT self t s = .ok (e', t', s') →
      t.eid ∈ self.rels ∧
      e'.rels = self.rels.erase t.eid ∧
      (retrieve_entity_list s' cfg.type).getLast? = some (readRow (to_df cfg e')) ∧
      (cfg.propagates = true → t'.rels = t.rels.erase self.eid) := by
    intro cfg cfgT self t e' t' s s' h
    obtain ⟨hm, hpe, sMid, hup, hbr⟩ :=
      remove_relationship_ent_ok cfg cfgT self t s e' t' s' h
    obtain ⟨_, hs'⟩ := io_update_inv sMid cfg.type e'.eid (to_df cfg e') s' hup
    refine ⟨hm, by rw [hpe], ?_, ?_⟩
    · rw [hs', retrieve_io_update]
      exact List.getLast?_concat _
    · intro hprop
      cases hbr with
      | inl hb =>
          obtain ⟨_, hrem⟩ := hb
          obtain ⟨_, hte, _⟩ :=
            remove_relationship0_ok cfgT t { self with rels := self.rels.erase t.eid }
              s t' sMid hrem
          rw [hte, eid_set_rels]
      | inr hb =>
          rw [hb.1] at hprop
          exact Bool.noConfusion hprop
  refine ⟨habsent, hsucc, ?_⟩
  intro p g p1 g1 p2 g2 s s1 s2 hadd hrem hgp hpg
  obtain ⟨sMid, hit, hp1, hup, hbr⟩ :=
    add_relationship_ent_ok personCfg groupCfg p g s p1 g1 s1 hadd
  have hg1 : g1.rels = g.rels ++ [p.eid] := by
    cases hbr with
    | inl hb =>
        obtain ⟨_, he0⟩ := hb
        obtain ⟨_, hg1, _⟩ :=
          add_relationship_ent0_ok groupCfg g { p with rels := p.rels ++ [g.eid] } s g1 sMid he0
        rw [hg1, eid_set_rels]
    | inr hb =>
        obtain ⟨hf, _⟩ := hb
        simp [personCfg] at hf
  have hg1id : g1.eid = g.eid := by
    cases hbr with
    | inl hb =>
        obtain ⟨_, hg1, _⟩ :=
          add_relationship_ent0_ok groupCfg g { p with rels := p.rels ++ [g.eid] } s g1 sMid hb.2
        rw [hg1]
        exact eid_attrs_aupdate g "members" _ _ (by decide)
    | inr hb =>
        obtain ⟨hf, _⟩ := hb
        simp [personCfg] at hf
  have hp1id : p1.eid = p.eid := by
    rw [hp1]
    exact eid_attrs_aupdate p "groups" _ _ (by decide)
  obtain ⟨hm2, hp2, hrest⟩ := hsucc personCfg groupCfg p1 g1 p2 g2 s1 s2 hrem
  obtain ⟨_, hg2⟩ := hrest
  constructor
  · rw [hp2, hg1id]
    rw [show p1.rels = p.rels ++ [g.eid] from by rw [hp1]]
    rw [List.erase_append_right _ hgp, List.erase_cons_head, List.append_nil]
    exact hgp
  · rw [hg2 rfl, hg1, hp1id]
    rw [List.erase_append_right _ hpg, List.erase_cons_head, List.append_nil]
    exact hpg

/-- C3 witness: the absent case raising the error, a completed concrete
remove after a completed concrete add, and the final state holding neither
id. -/
theorem claim_C3_witness :
    remove_relationship_ent personCfg groupCfg P0 G0 S0 =
      .error (.valueError "relationship-not-found") ∧
    (addRun = Except.ok (addP, addG, addS) ∧
     remRun = Except.ok (remP, remG, remS) ∧
     G0.eid ∉ P0.rels ∧ P0.eid ∉ G0.rels) ∧
    (G0.eid ∉ remP.rels ∧ P0.eid ∉ remG.rels) := by
  refine ⟨claim_C3.1 personCfg groupCfg P0 G0 S0 (by decide),
          ⟨by decide, by decide, by decide, by decide⟩, ?_⟩
  exact claim_C3.2.2 P0 G0 addP addG remP remG S0 addS remS
    (by decide) (by decide) (by decide) (by decide)

/-! Row and dictionary lemmas for the serialization round trip. -/

theorem rowGet_rowSetCell_self (r : Row) (k : String) (c : Cell) :
    rowGet (rowSetCell r k c) k = some c := by
  induction r with
  | nil => simp [rowSetCell, rowGet, List.find?]
  | cons p rest ih =>
      obtain ⟨k0, c0⟩ := p
      unfold rowSetCell
      by_cases h : k0 = k
      · rw [if_pos h]
        simp [rowGet, List.find?]
      · rw [if_neg h]
        unfold rowGet at ih ⊢
        simp only [List.find?]
        rw [show (k0 == k) = false from beq_eq_false_iff_ne.mpr h]
        exact ih

theorem rowGet_rowSetCell_ne (r : Row) (k k' : String) (c : Cell) (h : k' ≠ k) :
    rowGet (rowSetCell r k c) k' = rowGet r k' := by
  induction r with
  | nil =>
      simp [rowSetCell, rowGet, List.find?]
      rw [show (k == k') = false from beq_eq_false_iff_ne.mpr (Ne.symm h)]
  | cons p rest ih =>
      obtain ⟨k0, c0⟩ := p
      unfold rowSetCell
      by_cases h0 : k0 = k
      · rw [if_pos h0]
        unfold rowGet
        simp only [List.find?]
        have h1 : (k == k') = false := beq_eq_false_iff_ne.mpr (Ne.symm h)
        have h2 : (k0 == k') = false := by
          rw [h0]
          exact h1
        rw [h1, h2]
      · rw [if_neg h0]
        unfold rowGet at ih ⊢
        simp only [List.find?]
        by_cases h1 : k0 == k'
        · rw [h1]
        · simp only [h1]
          exact ih

theorem rowGet_map_cell (f : Cell → Cell) (r : Row) (k : String) :
    rowGet (r.map (fun p => (p.1, f p.2))) k = (rowGet r k).map f := by
  induction r with
  | nil => rfl
  | cons p rest ih =>
      obtain ⟨k0, c0⟩ := p
      unfold rowGet at ih ⊢
      simp only [List.map_cons, List.find?]
      by_cases h : k0 == k
      · rw [h]
        rfl
      · simp only [h]
        exact ih

theorem rowGet_readRow (r : Row) (k : String) :
    rowGet (readRow r) k = (rowGet r k).map readCell :=
  rowGet_map_cell readCell r k

theorem alookup_map_value (r : Row) (k : String) :
    alookup (r.map (fun p => (p.1, valueOfCell p.2))) k = (rowGet r k).map valueOfCell := by
  induction r with
  | nil => rfl
  | cons p rest ih =>
      obtain ⟨k0, c0⟩ := p
      unfold alookup rowGet at ih ⊢
      simp only [List.map_cons, List.find?]
      by_cases h : k0 == k
      · rw [h]
        rfl
      · simp only [h]
        exact ih

theorem rowGet_map_attrs (a : Attrs) (k : String) :
    rowGet (a.map (fun p => (p.1, cellOfValue p.2))) k = (alookup a k).map cellOfValue := by
  induction a with
  | nil => rfl
  | cons p rest ih =>
      obtain ⟨k0, v0⟩ := p
      unfold alookup rowGet at ih ⊢
      simp only [List.map_cons, List.find?]
      by_cases h : k0 == k
      · rw [h]
        rfl
      · simp only [h]
        exact ih

theorem rowGet_to_df_rel (cfg : EngineCfg) (e : REntity) :
    rowGet (to_df cfg e) cfg.relAttr = some (.str (relRepr e.rels)) := by
  unfold to_df
  exact rowGet_rowSetCell_self _ _ _

theorem rowGet_to_df_ne (cfg : EngineCfg) (e : REntity) (k : String) (h : k ≠ cfg.relAttr) :
    rowGet (to_df cfg e) k = (alookup e.attrs k).map cellOfValue := by
  unfold to_df
  rw [rowGet_rowSetCell_ne _ _ _ _ h, rowGet_map_attrs]

theorem readRow_rowSetCell (r : Row) (k : String) (c : Cell) :
    readRow (rowSetCell r k c) = rowSetCell (readRow r) k (readCell c) := by
  induction r with
  | nil => rfl
  | cons p rest ih =>
      obtain ⟨k0, c0⟩ := p
      show readRow (if k0 = k then (k, c) :: rest else (k0, c0) :: rowSetCell rest k c) =
        rowSetCell ((k0, readCell c0) :: readRow rest) k (readCell c)
      by_cases h : k0 = k
      · rw [if_pos h]
        show (k, readCell c) :: readRow rest =
          if k0 = k then (k, readCell c) :: readRow rest
          else (k0, readCell c0) :: rowSetCell (readRow rest) k (readCell c)
        rw [if_pos h]
      · rw [if_neg h]
        show (k0, readCell c0) :: readRow (rowSetCell rest k c) =
          if k0 = k then (k, readCell c) :: readRow rest
          else (k0, readCell c0) :: rowSetCell (readRow rest) k (readCell c)
        rw [if_neg h]
        exact congrArg _ ih

theorem map_value_rowSetCell (r : Row) (k : String) (c : Cell) :
    (rowSetCell r k c).map (fun p => (p.1, valueOfCell p.2)) =
      aupdate (r.map (fun p => (p.1, valueOfCell p.2))) k (valueOfCell c) := by
  induction r with
  | nil => rfl
  | cons p rest ih =>
      obtain ⟨k0, c0⟩ := p
      show ((if k0 = k then (k, c) :: rest else (k0, c0) :: rowSetCell rest k c).map
          (fun p => (p.1, valueOfCell p.2))) =
        aupdate ((k0, valueOfCell c0) :: rest.map (fun p => (p.1, valueOfCell p.2))) k
          (valueOfCell c)
      by_cases h : k0 = k
      · rw [if_pos h]
        show (k, valueOfCell c) :: rest.map (fun p => (p.1, valueOfCell p.2)) =
          if k0 = k then (k, valueOfCell c) :: rest.map (fun p => (p.1, valueOfCell p.2))
          else (k0, valueOfCell c0) ::
            aupdate (rest.map (fun p => (p.1, valueOfCell p.2))) k (valueOfCell c)
        rw [if_pos h]
      · rw [if_neg h]
        show (k0, valueOfCell c0) ::
            (rowSetCell rest k c).map (fun p => (p.1, valueOfCell p.2)) =
          if k0 = k then (k, valueOfCell c) :: rest.map (fun p => (p.1, valueOfCell p.2))
          else (k0, valueOfCell c0) ::
            aupdate (rest.map (fun p => (p.1, valueOfCell p.2))) k (valueOfCell c)
        rw [if_neg h]
        exact congrArg _ ih

theorem aupdate_aupdate (a : Attrs) (k : String) (v w : Value) :
    aupdate (aupdate a k v) k w = aupdate a k w := by
  induction a with
  | nil => simp [aupdate]
  | cons p rest ih =>
      obtain ⟨k0, v0⟩ := p
      show aupdate (if k0 = k then (k, v) :: rest else (k0, v0) :: aupdate rest k v) k w =
        if k0 = k then (k, w) :: rest else (k0, v0) :: aupdate rest k w
      by_cases h : k0 = k
      · rw [if_pos h, if_pos h]
        show (if k = k then (k, w) :: rest else (k, v) :: aupdate rest k w) = (k, w) :: rest
        rw [if_pos rfl]
      · rw [if_neg h, if_neg h]
        show (if k0 = k then (k, w) :: aupdate rest k v
            else (k0, v0) :: aupdate (aupdate rest k v) k w) =
          (k0, v0) :: aupdate rest k w
        rw [if_neg h]
        exact congrArg _ ih

theorem aupdate_self_of_alookup (a : Attrs) (k : String) (v : Value)
    (h : alookup a k = some v) : aupdate a k v = a := by
  induction a with
  | nil => exact Option.noConfusion (show (Option.none : Option Value) = some v from h)
  | cons p rest ih =>
      obtain ⟨k0, v0⟩ := p
      unfold alookup at h
      simp only [List.find?] at h
      show (if k0 = k then (k, v) :: rest else (k0, v0) :: aupdate rest k v) = (k0, v0) :: rest
      by_cases h0 : k0 = k
      · rw [if_pos h0]
        rw [show (k0 == k) = true from beq_iff_eq.mpr h0] at h
        have hv : v0 = v := Option.some.inj h
        rw [h0, ← hv]
      · rw [if_neg h0]
        rw [show (k0 == k) = false from beq_eq_false_iff_ne.mpr h0] at h
        exact congrArg _ (ih h)

theorem attrs_map_id (a : Attrs) (F : Value → Value) (h : ∀ p ∈ a, F p.2 = p.2) :
    a.map (fun p => (p.1, F p.2)) = a := by
  induction a with
  | nil => rfl
  | cons p rest ih =>
      obtain ⟨k0, v0⟩ := p
      simp only [List.map_cons]
      rw [h (k0, v0) (List.mem_cons_self _ _), ih (fun q hq => h q (List.mem_cons_of_mem _ hq))]

theorem aupdate_map_eq (B : Attrs) (k : String) (v : Value) (F : Value → Value)
    (hv : alookup B k = some v)
    (hF : ∀ p ∈ B, p.1 ≠ k → F p.2 = p.2)
    (hnd : (B.map Prod.fst).Nodup) :
    aupdate (B.map (fun p => (p.1, F p.2))) k v = B := by
  induction B with
  | nil => exact Option.noConfusion (show (Option.none : Option Value) = some v from hv)
  | cons p rest ih =>
      obtain ⟨k0, v0⟩ := p
      simp only [List.map_cons]
      show (if k0 = k then (k, v) :: rest.map (fun p => (p.1, F p.2))
          else (k0, F v0) :: aupdate (rest.map (fun p => (p.1, F p.2))) k v) = (k0, v0) :: rest
      unfold alookup at hv
      simp only [List.find?] at hv
      simp only [List.map_cons, List.nodup_cons] at hnd
      by_cases h0 : k0 = k
      · rw [if_pos h0]
        rw [show (k0 == k) = true from beq_iff_eq.mpr h0] at hv
        have hv0 : v0 = v := Option.some.inj hv
        have hrest : rest.map (fun p => (p.1, F p.2)) = rest := by
          apply attrs_map_id
          intro q hq
          apply hF q (List.mem_cons_of_mem _ hq)
          intro habs
          apply hnd.1
          rw [h0, ← habs]
          exact List.mem_map_of_mem Prod.fst hq
        rw [hrest, h0, ← hv0]
      · rw [if_neg h0]
        rw [show (k0 == k) = false from beq_eq_false_iff_ne.mpr h0] at hv
        have hhead : F v0 = v0 :=
          hF (k0, v0) (List.mem_cons_self _ _) h0
        rw [hhead]
        exact congrArg _ (ih hv (fun q hq hqk => hF q (List.mem_cons_of_mem _ hq) hqk) hnd.2)

theorem stable_roundtrip (v : Value) (h : stableValue v = true) :
    valueOfCell (readCell (cellOfValue v)) = v := by
  cases v with
  | str s =>
      have hs : ¬ (s = "") := by
        unfold stableValue at h
        simpa using h
      show valueOfCell (readCell (Cell.str s)) = Value.str s
      unfold readCell
      rw [if_neg (fun habs => hs (Cell.str.inj habs))]
      rfl
  | num q => rfl
  | nan => exact Bool.noConfusion h
  | none => exact Bool.noConfusion h
  | vlist l => exact Bool.noConfusion h

theorem mem_aupdate (a : Attrs) (k : String) (v : Value) (p : String × Value)
    (h : p ∈ aupdate a k v) : p ∈ a ∨ p = (k, v) := by
  induction a with
  | nil =>
      simp [aupdate] at h
      exact Or.inr h
  | cons q rest ih =>
      obtain ⟨k0, v0⟩ := q
      rw [show aupdate ((k0, v0) :: rest) k v =
          if k0 = k then (k, v) :: rest else (k0, v0) :: aupdate rest k v from rfl] at h
      by_cases h0 : k0 = k
      · rw [if_pos h0] at h
        cases List.mem_cons.mp h with
        | inl he => exact Or.inr he
        | inr hm => exact Or.inl (List.mem_cons_of_mem _ hm)
      · rw [if_neg h0] at h
        cases List.mem_cons.mp h with
        | inl he => exact Or.inl (he ▸ List.mem_cons_self _ _)
        | inr hm =>
            cases ih hm with
            | inl hma => exact Or.inl (List.mem_cons_of_mem _ hma)
            | inr heq => exact Or.inr heq

theorem check_args_of_all (cfg : EngineCfg) (kwargs : Attrs)
    (h : ∀ p ∈ kwargs,
        ((p.1 == cfg.relAttr && (p.2 == Value.none || isVlist p.2)) ||
          allowed_scalar p.2) = true) :
    check_args cfg kwargs = .ok () := by
  unfold check_args
  rw [if_pos (List.all_eq_true.mpr h)]

theorem check_required_of (cfg : EngineCfg) (kwargs : Attrs)
    (h : ∀ k ∈ cfg.requiredArgs, (alookup kwargs k).isSome = true) :
    check_required cfg kwargs = .ok () := by
  unfold check_required
  rw [if_pos (List.all_eq_true.mpr h)]

theorem autoFillLoop_skip (fill : AutoFill) (kwargs : Attrs) (elems : List String)
    (attrs : Attrs) (s : Store)
    (h : ∀ elem ∈ elems, alookup kwargs elem ≠ Option.none ∧
        alookup kwargs elem ≠ some Value.none) :
    autoFillLoop fill kwargs elems attrs s = .ok (attrs, s) := by
  induction elems generalizing attrs s with
  | nil => rfl
  | cons e rest ih =>
      obtain ⟨h1, h2⟩ := h e (List.mem_cons_self _ _)
      cases hv : alookup kwargs e with
      | none => exact absurd hv h1
      | some v =>
          cases v with
          | none => exact absurd hv h2
          | str s0 =>
              unfold autoFillLoop
              rw [hv]
              exact ih attrs s (fun x hx => h x (List.mem_cons_of_mem _ hx))
          | num q =>
              unfold autoFillLoop
              rw [hv]
              exact ih attrs s (fun x hx => h x (List.mem_cons_of_mem _ hx))
          | nan =>
              unfold autoFillLoop
              rw [hv]
              exact ih attrs s (fun x hx => h x (List.mem_cons_of_mem _ hx))
          | vlist l =>
              unfold autoFillLoop
              rw [hv]
              exact ih attrs s (fun x hx => h x (List.mem_cons_of_mem _ hx))

theorem addIds_all (cfg : EngineCfg) (s : Store) (l : List String) (self : REntity)
    (h : ∀ x ∈ l, is_type s cfg.relType x = true) :
    l.foldlM (fun e tid => add_entity_by_id cfg s e tid) self =
      .ok { self with rels := self.rels ++ l } := by
  induction l generalizing self with
  | nil =>
      show (Except.ok self : Except Err REntity) = _
      rw [show self.rels ++ [] = self.rels from List.append_nil _]
  | cons x xs ih =>
      rw [List.foldlM_cons, add_entity_by_id_eq,
        if_pos (h x (List.mem_cons_self _ _)), ebind_ok]
      rw [ih { self with rels := self.rels ++ [x] }
        (fun y hy => h y (List.mem_cons_of_mem _ hy))]
      simp

theorem find?_of_filter_singleton {α : Type} (p : α → Bool) (l : List α) (a : α)
    (h : l.filter p = [a]) : l.find? p = some a := by
  induction l with
  | nil => exact List.noConfusion h
  | cons x rest ih =>
      rw [List.filter_cons] at h
      by_cases hx : p x
      · rw [if_pos hx] at h
        have h1 : x = a := (List.cons.inj h).1
        rw [List.find?_cons_of_pos _ hx, h1]
      · rw [if_neg hx] at h
        rw [List.find?_cons_of_neg _ hx]
        exact ih h

theorem any_of_filter_singleton {α : Type} (p : α → Bool) (l : List α) (a : α)
    (h : l.filter p = [a]) : l.any p = true := by
  rw [List.any_eq_true]
  refine ⟨a, List.mem_of_mem_filter (p := p) ?_, ?_⟩
  · rw [h]
    exact List.mem_cons_self _ _
  · have := List.of_mem_filter (p := p) (l := l) (a := a) ?_
    · exact this
    · rw [h]
      exact List.mem_cons_self _ _

theorem is_type_of_tbl_eq (s s' : Store) (k : Kind) (id : String)
    (h : s'.tbl k = s.tbl k) : is_type s' k id = is_type s k id := by
  unfold is_type retrieve_entity_list
  rw [h]

theorem dct_roundtrip (cfg : EngineCfg) (attrs : Attrs) (l : List String)
    (hnd : (attrs.map Prod.fst).Nodup)
    (hstab : ∀ p ∈ attrs, p.1 ≠ cfg.relAttr → stableValue p.2 = true)
    (hrel : alookup attrs cfg.relAttr = some (Value.vlist l))
    (hj : relRepr l ≠ "") :
    aupdate ((readRow (to_df cfg ⟨attrs, l⟩)).map (fun p => (p.1, valueOfCell p.2)))
      cfg.relAttr (Value.vlist l) = attrs := by
  unfold to_df
  rw [readRow_rowSetCell]
  rw [show readCell (Cell.str (relRepr ((⟨attrs, l⟩ : REntity)).rels)) =
      Cell.str (relRepr l) from by
    unfold readCell
    rw [if_neg (fun habs => hj (Cell.str.inj habs))]]
  rw [map_value_rowSetCell]
  rw [aupdate_aupdate]
  rw [show (readRow (((⟨attrs, l⟩ : REntity)).attrs.map
        (fun p => (p.1, cellOfValue p.2)))).map (fun p => (p.1, valueOfCell p.2)) =
      attrs.map (fun p => (p.1, valueOfCell (readCell (cellOfValue p.2)))) from by
    unfold readRow
    rw [List.map_map, List.map_map]
    rfl]
  exact aupdate_map_eq attrs cfg.relAttr (Value.vlist l)
    (fun v => valueOfCell (readCell (cellOfValue v))) hrel
    (fun p hp hne => stable_roundtrip p.2 (hstab p hp hne)) hnd

theorem mkR_reload (cfg : EngineCfg) (fill : AutoFill) (attrs : Attrs) (l : List String)
    (newId : String) (s : Store)
    (hca : check_args cfg attrs = .ok ())
    (hcr : check_required cfg attrs = .ok ())
    (hid : (alookup attrs "id").isSome = true)
    (hauto : ∀ elem ∈ cfg.autoArgs, alookup attrs elem ≠ Option.none ∧
        alookup attrs elem ≠ some Value.none)
    (hrel : alookup attrs cfg.relAttr = some (Value.vlist l))
    (hl : l ≠ [])
    (hval : ∀ x ∈ l, is_type s cfg.relType x = true)
    (hrow : hasRow s cfg.type (REntity.eid ⟨attrs, l⟩) = true) :
    mkR cfg fill attrs newId false s =
      .ok (⟨attrs, l⟩,
        s.setTbl cfg.type (saveTable ((retrieve_entity_list s cfg.type).filter
          (fun r => !(rowId r == some (REntity.eid ⟨attrs, l⟩))) ++
          [to_df cfg ⟨attrs, l⟩]))) := by
  unfold mkR
  rw [hca, ebind_ok, hcr, ebind_ok, if_pos hid]
  rw [autoFillLoop_skip fill attrs cfg.autoArgs attrs s hauto, ebind_ok]
  show (match alookup attrs cfg.relAttr with
    | some v => add_relationship_init cfg ⟨attrs, []⟩ v s
    | Option.none => Except.error Err.keyError) = _
  rw [hrel]
  show add_relationship_ids cfg ⟨attrs, []⟩ l s = _
  unfold add_relationship_ids
  rw [if_neg hl]
  rw [addIds_all cfg s l ⟨attrs, []⟩ hval, ebind_ok]
  show persist_rels cfg ⟨attrs, [] ++ l⟩ s = _
  rw [show ([] : List String) ++ l = l from List.nil_append _]
  unfold persist_rels update_in_store
  rw [show ({ (⟨attrs, l⟩ : REntity) with
      attrs := aupdate (⟨attrs, l⟩ : REntity).attrs cfg.relAttr
        (Value.vlist (⟨attrs, l⟩ : REntity).rels) } : REntity) = ⟨attrs, l⟩ from by
    rw [show aupdate (⟨attrs, l⟩ : REntity).attrs cfg.relAttr
        (Value.vlist (⟨attrs, l⟩ : REntity).rels) = attrs from
      aupdate_self_of_alookup attrs cfg.relAttr (Value.vlist l) hrel]]
  rw [io_update_ok s cfg.type (REntity.eid ⟨attrs, l⟩) (to_df cfg ⟨attrs, l⟩) hrow]
  rfl

theorem mkR_reload_none (cfg : EngineCfg) (fill : AutoFill) (attrs : Attrs)
    (newId : String) (s : Store)
    (hca : check_args cfg attrs = .ok ())
    (hcr : check_required cfg attrs = .ok ())
    (hid : (alookup attrs "id").isSome = true)
    (hauto : ∀ elem ∈ cfg.autoArgs, elem ≠ cfg.relAttr →
        alookup attrs elem ≠ Option.none ∧ alookup attrs elem ≠ some Value.none)
    (hrel : alookup attrs cfg.relAttr = some Value.none)
    (hfill : fill attrs s cfg.relAttr = .ok (Value.none, s)) :
    mkR cfg fill attrs newId false s = .ok (⟨attrs, []⟩, s) := by
  unfold mkR
  rw [hca, ebind_ok, hcr, ebind_ok, if_pos hid]
  have hloop : autoFillLoop fill attrs cfg.autoArgs attrs s = .ok (attrs, s) := by
    have haux : ∀ elems : List String, (∀ elem ∈ elems, elem = cfg.relAttr ∨
        (alookup attrs elem ≠ Option.none ∧ alookup attrs elem ≠ some Value.none)) →
        autoFillLoop fill attrs elems attrs s = .ok (attrs, s) := by
      intro elems
      induction elems with
      | nil => intro _; rfl
      | cons e rest ih =>
          intro hall
          cases hall e (List.mem_cons_self _ _) with
          | inl heq =>
              rw [heq]
              have hstep : autoFillLoop fill attrs (cfg.relAttr :: rest) attrs s =
                  autoFillLoop fill attrs rest (aupdate attrs cfg.relAttr Value.none) s := by
                conv_lhs => unfold autoFillLoop
                rw [hrel, hfill, ebind_ok]
              rw [hstep, aupdate_self_of_alookup attrs cfg.relAttr Value.none hrel]
              exact ih (fun x hx => hall x (List.mem_cons_of_mem _ hx))
          | inr hne =>
              obtain ⟨h1, h2⟩ := hne
              cases hv : alookup attrs e with
              | none => exact absurd hv h1
              | some v =>
                  cases v with
                  | none => exact absurd hv h2
                  | str s0 =>
                      unfold autoFillLoop
                      rw [hv]
                      exact ih (fun x hx => hall x (List.mem_cons_of_mem _ hx))
                  | num q =>
                      unfold autoFillLoop
                      rw [hv]
                      exact ih (fun x hx => hall x (List.mem_cons_of_mem _ hx))
                  | nan =>
                      unfold autoFillLoop
                      rw [hv]
                      exact ih (fun x hx => hall x (List.mem_cons_of_mem _ hx))
                  | vlist l0 =>
                      unfold autoFillLoop
                      rw [hv]
                      exact ih (fun x hx => hall x (List.mem_cons_of_mem _ hx))
    apply haux
    intro elem he
    by_cases heq : elem = cfg.relAttr
    · exact Or.inl heq
    · exact Or.inr (hauto elem he heq)
  rw [hloop, ebind_ok]
  show (match alookup attrs cfg.relAttr with
    | some v => add_relationship_init cfg ⟨attrs, []⟩ v s
    | Option.none => Except.error Err.keyError) = _
  rw [hrel]
  rfl

theorem dct_roundtrip_none (cfg : EngineCfg) (attrs : Attrs)
    (hnd : (attrs.map Prod.fst).Nodup)
    (hstab : ∀ p ∈ attrs, p.1 ≠ cfg.relAttr → stableValue p.2 = true)
    (hrel : alookup attrs cfg.relAttr = some Value.none) :
    aupdate ((readRow (to_df cfg ⟨attrs, []⟩)).map (fun p => (p.1, valueOfCell p.2)))
      cfg.relAttr Value.none = attrs := by
  unfold to_df
  rw [readRow_rowSetCell]
  rw [show readCell (Cell.str (relRepr ((⟨attrs, []⟩ : REntity)).rels)) = Cell.nan from rfl]
  rw [map_value_rowSetCell]
  rw [show valueOfCell Cell.nan = Value.nan from rfl]
  rw [aupdate_aupdate]
  rw [show (readRow (((⟨attrs, []⟩ : REntity)).attrs.map
        (fun p => (p.1, cellOfValue p.2)))).map (fun p => (p.1, valueOfCell p.2)) =
      attrs.map (fun p => (p.1, valueOfCell (readCell (cellOfValue p.2)))) from by
    unfold readRow
    rw [List.map_map, List.map_map]
    rfl]
  exact aupdate_map_eq attrs cfg.relAttr Value.none
    (fun v => valueOfCell (readCell (cellOfValue v))) hrel
    (fun p hp hne => stable_roundtrip p.2 (hstab p hp hne)) hnd

theorem rowId_readRow_to_df (cfg : EngineCfg) (attrs : Attrs) (l : List String)
    (id0 : String)
    (hid : alookup attrs "id" = some (Value.str id0))
    (hid0 : id0 ≠ "")
    (hidne : cfg.relAttr ≠ "id") :
    rowId (readRow (to_df cfg ⟨attrs, l⟩)) = some id0 := by
  unfold rowId
  rw [rowGet_readRow, rowGet_to_df_ne cfg ⟨attrs, l⟩ "id" (Ne.symm hidne)]
  rw [show alookup (⟨attrs, l⟩ : REntity).attrs "id" = some (Value.str id0) from hid]
  rw [show (Option.map cellOfValue (some (Value.str id0))).map readCell =
      some (Cell.str id0) from by
    show some (readCell (Cell.str id0)) = some (Cell.str id0)
    unfold readCell
    rw [if_neg (fun habs => hid0 (Cell.str.inj habs))]]

/-- C8 counterexample: a person created with an explicitly empty group list
stores the list as an empty cell; retrieving the person by id brings the
attribute back as None, the no-relationships value, so a present-but-empty
list is not distinguished from an absent one and the round trip is not
lossless. -/
theorem claim_C8_cex :
    (mkPerson [("name", Value.str "Cee"), ("groups", Value.vlist [])] "p9" true
        (⟨[], [], []⟩ : Store)).map (fun r => alookup r.1.attrs "groups") =
      Except.ok (some (Value.vlist [])) ∧
    ((mkPerson [("name", Value.str "Cee"), ("groups", Value.vlist [])] "p9" true
        (⟨[], [], []⟩ : Store)).bind (fun r => Person.from_store r.2 "p9")).map
      (fun r => alookup r.1.attrs "groups") =
      Except.ok (some Value.none) ∧
    some Value.none ≠ some (Value.vlist []) := by
  exact ⟨by decide, by decide, by decide⟩

/-- C8 amended: storing an entity and retrieving it by id is lossless for
stable scalar attributes (non-empty text and numbers) and for a non-empty
relationship list, which is decoded from its joined encoding back into the
same list; an absent relationship value (None) also round-trips as None for
the kinds whose auto-fill returns None; but a present-and-empty list is
encoded as an empty cell and comes back as None, conflated with absence, as
the counterexample shows. -/
theorem claim_C8 (cfg : EngineCfg) (fill : AutoFill) :
    (∀ (attrs : Attrs) (l : List String) (id0 : String) (s : Store),
      (attrs.map Prod.fst).Nodup →
      (∀ p ∈ attrs, p.1 ≠ cfg.relAttr → stableValue p.2 = true) →
      alookup attrs "id" = some (Value.str id0) →
      id0 ≠ "" →
      cfg.relAttr ≠ "id" →
      hasRow s cfg.type id0 = false →
      check_args cfg attrs = .ok () →
      check_required cfg attrs = .ok () →
      (∀ elem ∈ cfg.autoArgs, alookup attrs elem ≠ Option.none ∧
        alookup attrs elem ≠ some Value.none) →
      alookup attrs cfg.relAttr = some (Value.vlist l) →
      l ≠ [] →
      relRepr l ≠ "" →
      splitOnSemi (relRepr l) = l →
      cfg.relType ≠ cfg.type →
      (∀ x ∈ l, is_type s cfg.relType x = true) →
      ∃ s2, from_store cfg fill (io_store s cfg.type (to_df cfg ⟨attrs, l⟩)) id0 =
        .ok (⟨attrs, l⟩, s2)) ∧
    (∀ (attrs : Attrs) (id0 : String) (s : Store),
      (attrs.map Prod.fst).Nodup →
      (∀ p ∈ attrs, p.1 ≠ cfg.relAttr → stableValue p.2 = true) →
      alookup attrs "id" = some (Value.str id0) →
      id0 ≠ "" →
      cfg.relAttr ≠ "id" →
      hasRow s cfg.type id0 = false →
      check_args cfg attrs = .ok () →
      check_required cfg attrs = .ok () →
      (∀ elem ∈ cfg.autoArgs, elem ≠ cfg.relAttr →
        alookup attrs elem ≠ Option.none ∧ alookup attrs elem ≠ some Value.none) →
      alookup attrs cfg.relAttr = some Value.none →
      (∀ s', fill attrs s' cfg.relAttr = .ok (Value.none, s')) →
      from_store cfg fill (io_store s cfg.type (to_df cfg ⟨attrs, []⟩)) id0 =
        .ok (⟨attrs, []⟩, io_store s cfg.type (to_df cfg ⟨attrs, []⟩))) := by
  constructor
  · intro attrs l id0 s hnd hstab hid hid0 hidne hfresh hca hcr hauto hrel hl hj hsplit hkt hval
    have hrid : rowId (readRow (to_df cfg ⟨attrs, l⟩)) = some id0 :=
      rowId_readRow_to_df cfg attrs l id0 hid hid0 hidne
    have hview : retrieve_entity_list (io_store s cfg.type (to_df cfg ⟨attrs, l⟩)) cfg.type =
        retrieve_entity_list s cfg.type ++ [readRow (to_df cfg ⟨attrs, l⟩)] :=
      retrieve_io_store s cfg.type (to_df cfg ⟨attrs, l⟩)
    have hretr : retrieve_by_id (io_store s cfg.type (to_df cfg ⟨attrs, l⟩)) cfg.type id0 =
        .ok (readRow (to_df cfg ⟨attrs, l⟩)) := by
      unfold retrieve_by_id
      rw [hview, List.find?_append]
      rw [List.find?_eq_none.mpr (fun r hr => by
        intro hp
        have : (retrieve_entity_list s cfg.type).any (fun r => rowId r == some id0) = true :=
          List.any_eq_true.mpr ⟨r, hr, hp⟩
        rw [show (retrieve_entity_list s cfg.type).any (fun r => rowId r == some id0) =
            hasRow s cfg.type id0 from rfl, hfresh] at this
        exact Bool.noConfusion this)]
      simp [List.find?, hrid]
    have hdecode : alookup ((readRow (to_df cfg ⟨attrs, l⟩)).map
        (fun p => (p.1, valueOfCell p.2))) cfg.relAttr =
        some (Value.str (relRepr l)) := by
      rw [alookup_map_value, rowGet_readRow, rowGet_to_df_rel]
      show some (valueOfCell (readCell (Cell.str (relRepr l)))) = _
      unfold readCell
      rw [if_neg (fun habs => hj (Cell.str.inj habs))]
      rfl
    have heid : REntity.eid ⟨attrs, l⟩ = id0 := by
      unfold REntity.eid
      rw [show alookup (⟨attrs, l⟩ : REntity).attrs "id" = some (Value.str id0) from hid]
    have hrow1 : hasRow (io_store s cfg.type (to_df cfg ⟨attrs, l⟩)) cfg.type
        (REntity.eid ⟨attrs, l⟩) = true := by
      unfold hasRow
      rw [hview, List.any_append, heid]
      have : (readRow (to_df cfg ⟨attrs, l⟩) :: []).any
          (fun r => rowId r == some id0) = true := by
        simp [List.any_cons, hrid]
      rw [this, Bool.or_true]
    have hval1 : ∀ x ∈ l, is_type (io_store s cfg.type (to_df cfg ⟨attrs, l⟩))
        cfg.relType x = true := by
      intro x hx
      have htb : (io_store s cfg.type (to_df cfg ⟨attrs, l⟩)).tbl cfg.relType =
          s.tbl cfg.relType := tbl_setTbl_ne s cfg.type cfg.relType _ hkt
      rw [is_type_of_tbl_eq s (io_store s cfg.type (to_df cfg ⟨attrs, l⟩))
        cfg.relType x htb]
      exact hval x hx
    exact ⟨_, by
      unfold from_store
      rw [hretr, ebind_ok, hdecode]
      show mkR cfg fill (aupdate ((readRow (to_df cfg ⟨attrs, l⟩)).map
          (fun p => (p.1, valueOfCell p.2))) cfg.relAttr
          (Value.vlist (splitOnSemi (relRepr l)))) "" false
          (io_store s cfg.type (to_df cfg ⟨attrs, l⟩)) = _
      rw [hsplit, dct_roundtrip cfg attrs l hnd hstab hrel hj]
      exact mkR_reload cfg fill attrs l "" _ hca hcr (by rw [hid]; rfl) hauto hrel hl
        hval1 hrow1⟩
  · intro attrs id0 s hnd hstab hid hid0 hidne hfresh hca hcr hauto hrel hfill
    have hrid : rowId (readRow (to_df cfg ⟨attrs, []⟩)) = some id0 :=
      rowId_readRow_to_df cfg attrs [] id0 hid hid0 hidne
    have hview : retrieve_entity_list (io_store s cfg.type (to_df cfg ⟨attrs, []⟩)) cfg.type =
        retrieve_entity_list s cfg.type ++ [readRow (to_df cfg ⟨attrs, []⟩)] :=
      retrieve_io_store s cfg.type (to_df cfg ⟨attrs, []⟩)
    have hretr : retrieve_by_id (io_store s cfg.type (to_df cfg ⟨attrs, []⟩)) cfg.type id0 =
        .ok (readRow (to_df cfg ⟨attrs, []⟩)) := by
      unfold retrieve_by_id
      rw [hview, List.find?_append]
      rw [List.find?_eq_none.mpr (fun r hr => by
        intro hp
        have : (retrieve_entity_list s cfg.type).any (fun r => rowId r == some id0) = true :=
          List.any_eq_true.mpr ⟨r, hr, hp⟩
        rw [show (retrieve_entity_list s cfg.type).any (fun r => rowId r == some id0) =
            hasRow s cfg.type id0 from rfl, hfresh] at this
        exact Bool.noConfusion this)]
      simp [List.find?, hrid]
    have hdecode : alookup ((readRow (to_df cfg ⟨attrs, []⟩)).map
        (fun p => (p.1, valueOfCell p.2))) cfg.relAttr = some Value.nan := by
      rw [alookup_map_value, rowGet_readRow, rowGet_to_df_rel]
      rfl
    unfold from_store
    rw [hretr, ebind_ok, hdecode]
    show mkR cfg fill (aupdate ((readRow (to_df cfg ⟨attrs, []⟩)).map
        (fun p => (p.1, valueOfCell p.2))) cfg.relAttr Value.none) "" false
        (io_store s cfg.type (to_df cfg ⟨attrs, []⟩)) = _
    rw [dct_roundtrip_none cfg attrs hnd hstab hrel]
    exact mkR_reload_none cfg fill attrs "" _ hca hcr (by rw [hid]; rfl) hauto hrel (hfill _)

/-- C8 witness: a concrete person with one group round-trips losslessly
through store and retrieve, and a concrete person with the relationship
value absent round-trips as no-relationships. -/
theorem claim_C8_witness :
    (((([("name", Value.str "Dee"), ("id", Value.str "p7"),
         ("groups", Value.vlist ["g1"])] : Attrs).map Prod.fst).Nodup ∧
      alookup [("name", Value.str "Dee"), ("id", Value.str "p7"),
        ("groups", Value.vlist ["g1"])] "groups" = some (Value.vlist ["g1"])) ∧
     (∃ s2, PT.from_store personCfg trivialFill
        (io_store S0 Kind.person (to_df personCfg
          ⟨[("name", Value.str "Dee"), ("id", Value.str "p7"),
            ("groups", Value.vlist ["g1"])], ["g1"]⟩)) "p7" =
        .ok (⟨[("name", Value.str "Dee"), ("id", Value.str "p7"),
              ("groups", Value.vlist ["g1"])], ["g1"]⟩, s2))) ∧
    (PT.from_store personCfg trivialFill
        (io_store S0 Kind.person (to_df personCfg
          ⟨[("name", Value.str "Dee"), ("id", Value.str "p7"),
            ("groups", Value.none)], []⟩)) "p7" =
      .ok (⟨[("name", Value.str "Dee"), ("id", Value.str "p7"),
            ("groups", Value.none)], []⟩,
           io_store S0 Kind.person (to_df personCfg
            ⟨[("name", Value.str "Dee"), ("id", Value.str "p7"),
              ("groups", Value.none)], []⟩))) := by
  constructor
  · constructor
    · exact ⟨by decide, by decide⟩
    · exact (claim_C8 personCfg trivialFill).1
        [("name", Value.str "Dee"), ("id", Value.str "p7"), ("groups", Value.vlist ["g1"])]
        ["g1"] "p7" S0 (by decide) (by decide) (by decide) (by decide) (by decide)
        (by decide) (by decide) (by decide) (by decide) (by decide) (by decide)
        (by decide) (by decide) (by decide) (by decide)
  · exact (claim_C8 personCfg trivialFill).2
      [("name", Value.str "Dee"), ("id", Value.str "p7"), ("groups", Value.none)]
      "p7" S0 (by decide) (by decide) (by decide) (by decide) (by decide)
      (by decide) (by decide) (by decide) (by decide) (by decide) (fun s' => rfl)

theorem readRow_of_mem_view (t : Table) (r : Row) (h : r ∈ readTable t) :
    readRow r = r := by
  obtain ⟨r0, _, hr0⟩ := List.mem_map.mp h
  rw [← hr0, readRow_idem]

/-- Reconstructing a well-formed group from the store: the entity carries
the decoded member list, and the store is rewritten with the same canonical
row moved to the end of the group table; the other tables are untouched and
well-formedness is preserved. -/
theorem from_store_group_wf (s : Store) (gid name mstr : String) (ms : List String)
    (h : GroupWF s gid name mstr ms) :
    Group.from_store s gid =
        .ok (⟨[("name", Value.str name), ("id", Value.str gid),
               ("members", Value.vlist ms)], ms⟩, groupReloadStore s gid name mstr) ∧
      GroupWF (groupReloadStore s gid name mstr) gid name mstr ms ∧
      (groupReloadStore s gid name mstr).person = s.person ∧
      (groupReloadStore s gid name mstr).payment = s.payment := by
  obtain ⟨hfilter, hsplit, hjoin, hms, hpers⟩ := h
  have hfind : (retrieve_entity_list s .group).find?
      (fun r => rowId r == some gid) = some (groupRowOf gid name mstr) :=
    find?_of_filter_singleton _ _ _ hfilter
  have hretr : retrieve_by_id s .group gid = .ok (groupRowOf gid name mstr) := by
    unfold retrieve_by_id
    rw [hfind]
  have hmem : groupRowOf gid name mstr ∈ retrieve_entity_list s .group := by
    have h2 : groupRowOf gid name mstr ∈
        (retrieve_entity_list s .group).filter (fun r => rowId r == some gid) := by
      rw [hfilter]
      exact List.mem_cons_self _ _
    exact List.mem_of_mem_filter h2
  have hrow : hasRow s Kind.group (REntity.eid
      ⟨[("name", Value.str name), ("id", Value.str gid),
        ("members", Value.vlist ms)], ms⟩) = true := by
    show hasRow s Kind.group gid = true
    exact any_of_filter_singleton _ _ _ hfilter
  have hca : check_args groupCfg
      [("name", Value.str name), ("id", Value.str gid),
       ("members", Value.vlist ms)] = .ok () := by
    apply check_args_of_all
    intro p hp
    cases hp with
    | head => rfl
    | tail _ hp =>
        cases hp with
        | head => rfl
        | tail _ hp =>
            cases hp with
            | head => rfl
            | tail _ hp => cases hp
  have hauto : ∀ elem ∈ groupCfg.autoArgs,
      alookup [("name", Value.str name), ("id", Value.str gid),
        ("members", Value.vlist ms)] elem ≠ Option.none ∧
      alookup [("name", Value.str name), ("id", Value.str gid),
        ("members", Value.vlist ms)] elem ≠ some Value.none := by
    intro elem he
    cases he with
    | head =>
        constructor
        · intro habs
          exact Option.noConfusion habs
        · intro habs
          exact Value.noConfusion (Option.some.inj habs)
    | tail _ h2 => cases h2
  have hmk := mkR_reload groupCfg trivialFill
    [("name", Value.str name), ("id", Value.str gid), ("members", Value.vlist ms)]
    ms "" s hca rfl rfl hauto rfl hms hpers hrow
  have hdf : to_df groupCfg
      ⟨[("name", Value.str name), ("id", Value.str gid),
        ("members", Value.vlist ms)], ms⟩ = groupRowOf gid name mstr := by
    rw [show to_df groupCfg
        ⟨[("name", Value.str name), ("id", Value.str gid),
          ("members", Value.vlist ms)], ms⟩ =
        groupRowOf gid name (relRepr ms) from rfl, hjoin]
  rw [hdf] at hmk
  rw [show (REntity.eid
      (⟨[("name", Value.str name), ("id", Value.str gid),
        ("members", Value.vlist ms)], ms⟩ : REntity) : String) = gid from rfl] at hmk
  rw [show groupCfg.type = Kind.group from rfl] at hmk
  refine ⟨?_, ?_, ?_, ?_⟩
  · show PT.from_store groupCfg trivialFill s gid = _
    unfold PT.from_store
    rw [show groupCfg.type = Kind.group from rfl]
    rw [hretr, ebind_ok]
    have hdec : alookup ((groupRowOf gid name mstr).map
        (fun p => (p.1, valueOfCell p.2))) groupCfg.relAttr =
        some (Value.str mstr) := rfl
    rw [hdec]
    show mkR groupCfg trivialFill
      (aupdate ((groupRowOf gid name mstr).map (fun p => (p.1, valueOfCell p.2)))
        groupCfg.relAttr (Value.vlist (splitOnSemi mstr))) "" false s = _
    rw [hsplit]
    show mkR groupCfg trivialFill
      [("name", Value.str name), ("id", Value.str gid), ("members", Value.vlist ms)]
      "" false s = _
    exact hmk
  · unfold groupReloadStore
    constructor
    · rw [retrieve_io_update s Kind.group gid (groupRowOf gid name mstr)]
      rw [readRow_of_mem_view _ _ hmem]
      rw [List.filter_append, List.filter_filter]
      rw [List.filter_eq_nil_iff.mpr (fun a _ => by simp)]
      rw [show (List.filter (fun r => rowId r == some gid) [groupRowOf gid name mstr]) =
          [groupRowOf gid name mstr] from by
        rw [List.filter_eq_self]
        intro a ha
        cases ha with
        | head => simp [rowId, rowGet, List.find?]
        | tail _ h2 => cases h2]
      rfl
    · refine ⟨hsplit, hjoin, hms, ?_⟩
      intro m hm
      rw [is_type_of_tbl_eq s _ Kind.person m (tbl_setTbl_ne s Kind.group Kind.person _
        (by intro habs; exact Kind.noConfusion habs))]
      exact hpers m hm
  · rfl
  · rfl

/-- Reconstructing a person whose stored row carries no relationship cell
(NaN): the attribute decodes to None, the constructor runs with an empty
list, and no table is written at all. -/
theorem from_store_person_none (s : Store) (pid pname : String)
    (h : (retrieve_entity_list s .person).filter (fun r => rowId r == some pid) =
        [[("name", Cell.str pname), ("id", Cell.str pid), ("groups", Cell.nan)]]) :
    Person.from_store s pid =
      .ok (⟨[("name", Value.str pname), ("id", Value.str pid),
             ("groups", Value.none)], []⟩, s) := by
  have hfind : (retrieve_entity_list s .person).find?
      (fun r => rowId r == some pid) =
      some [("name", Cell.str pname), ("id", Cell.str pid), ("groups", Cell.nan)] :=
    find?_of_filter_singleton _ _ _ h
  have hretr : retrieve_by_id s .person pid =
      .ok [("name", Cell.str pname), ("id", Cell.str pid), ("groups", Cell.nan)] := by
    unfold retrieve_by_id
    rw [hfind]
  show PT.from_store personCfg trivialFill s pid = _
  unfold PT.from_store
  rw [show personCfg.type = Kind.person from rfl]
  rw [hretr, ebind_ok]
  show mkR personCfg trivialFill
    [("name", Value.str pname), ("id", Value.str pid), ("groups", Value.none)]
    "" false s = _
  exact mkR_reload_none personCfg trivialFill
    [("name", Value.str pname), ("id", Value.str pid), ("groups", Value.none)]
    "" s rfl rfl rfl
    (fun elem he hne => by
      cases he with
      | head => exact absurd rfl hne
      | tail _ h2 => cases h2)
    rfl rfl

/-- C9 counterexample: reconstructing a stored group rewrites the group
table (its canonical row is dropped and re-appended, changing the table),
so reconstruction does perform a persistence write; person and payment
tables stay untouched by it.  Group.payments likewise re-persists each
reconstructed payment, rewriting the payment table while leaving the person
and group tables unchanged. -/
theorem claim_C9_cex :
    (Group.from_store S5 "g1").map (fun pr => pr.2) ≠ .ok S5 ∧
    (Group.from_store S5 "g1").map (fun pr => (pr.2.person, pr.2.payment)) =
      .ok (S5.person, S5.payment) ∧
    (Group.payments GAB S6).map (fun pr => pr.2.payment) ≠ .ok S6.payment ∧
    (Group.payments GAB S6).map (fun pr => (pr.2.person, pr.2.group)) =
      .ok (S6.person, S6.group) := by
  refine ⟨by decide, by decide, by decide, by decide⟩

/-- C9: reconstruction from storage skips the append step but is not
write-free: the constructor path re-adds the decoded relationships, and
whenever that list is non-empty the entity is re-persisted, update-writing
its own table (the canonical row content is preserved under its id and
moved to the end, the other tables are untouched and well-formedness is
kept).  Only reconstruction of an entity with no stored relationships
leaves every table unchanged. -/
theorem claim_C9 (s pS : Store) (gid name mstr pid pname : String) (ms : List String)
    (hg : GroupWF s gid name mstr ms)
    (hp : (retrieve_entity_list pS .person).filter (fun r => rowId r == some pid) =
        [[("name", Cell.str pname), ("id", Cell.str pid), ("groups", Cell.nan)]]) :
    (Group.from_store s gid =
        .ok (⟨[("name", Value.str name), ("id", Value.str gid),
               ("members", Value.vlist ms)], ms⟩, groupReloadStore s gid name mstr) ∧
      GroupWF (groupReloadStore s gid name mstr) gid name mstr ms ∧
      (groupReloadStore s gid name mstr).person = s.person ∧
      (groupReloadStore s gid name mstr).payment = s.payment) ∧
    Person.from_store pS pid =
      .ok (⟨[("name", Value.str pname), ("id", Value.str pid),
             ("groups", Value.none)], []⟩, pS) :=
  ⟨from_store_group_wf s gid name mstr ms hg, from_store_person_none pS pid pname hp⟩

theorem autoFillLoop_placeholders (kwargs : Attrs) (s : Store)
    (elems : List String) (attrs : Attrs)
    (h : ∀ elem ∈ elems, alookup kwargs elem = Option.none ∧ elem ≠ "paid_for") :
    autoFillLoop paymentFill kwargs elems attrs s =
      .ok (elems.foldl (fun a e => aupdate a e (Value.str (placeholder e))) attrs, s) := by
  revert h
  induction elems generalizing attrs with
  | nil => intro _; rfl
  | cons e rest ih =>
      intro h
      obtain ⟨h1, h2⟩ := h e (List.mem_cons_self _ _)
      have hfe : paymentFill attrs s e = .ok (Value.str (placeholder e), s) := by
        unfold paymentFill
        rw [if_neg h2]
      have hstep : autoFillLoop paymentFill kwargs (e :: rest) attrs s =
          autoFillLoop paymentFill kwargs rest
            (aupdate attrs e (Value.str (placeholder e))) s := by
        conv_lhs => unfold autoFillLoop
        rw [h1, hfe, ebind_ok]
      rw [hstep, List.foldl_cons]
      exact ih (aupdate attrs e (Value.str (placeholder e)))
        (fun x hx => h x (List.mem_cons_of_mem _ hx))

/-- The constructor run of a stored creation (store True, fresh id): append
the auto-filled row, then re-add the relationships, which update-writes the
entity table once more. -/
theorem mkR_create (cfg : EngineCfg) (fill : AutoFill) (attrs kwargs : Attrs)
    (l : List String) (newId : String) (s sf : Store)
    (hca : check_args cfg kwargs = .ok ())
    (hcr : check_required cfg kwargs = .ok ())
    (hid : (alookup kwargs "id").isSome = false)
    (hloop : autoFillLoop fill kwargs cfg.autoArgs
        (aupdate kwargs "id" (Value.str newId)) s = .ok (attrs, sf))
    (hrel : alookup attrs cfg.relAttr = some (Value.vlist l))
    (hl : l ≠ [])
    (hval : ∀ x ∈ l, is_type (io_store sf cfg.type (to_df cfg ⟨attrs, []⟩))
        cfg.relType x = true)
    (hidl : alookup attrs "id" = some (Value.str newId))
    (hnnil : newId ≠ "")
    (hrelid : cfg.relAttr ≠ "id") :
    mkR cfg fill kwargs newId true s =
      .ok (⟨attrs, l⟩,
        (io_store sf cfg.type (to_df cfg ⟨attrs, []⟩)).setTbl cfg.type
          (saveTable ((retrieve_entity_list
              (io_store sf cfg.type (to_df cfg ⟨attrs, []⟩)) cfg.type).filter
            (fun r => !(rowId r == some (REntity.eid ⟨attrs, l⟩))) ++
            [to_df cfg ⟨attrs, l⟩]))) := by
  have hrow : hasRow (io_store sf cfg.type (to_df cfg ⟨attrs, []⟩)) cfg.type
      (REntity.eid ⟨attrs, l⟩) = true := by
    have hide : REntity.eid ⟨attrs, l⟩ = newId := by
      unfold REntity.eid
      rw [show alookup (⟨attrs, l⟩ : REntity).attrs "id" =
        some (Value.str newId) from hidl]
    unfold hasRow
    rw [retrieve_io_store, List.any_append]
    rw [show List.any [readRow (to_df cfg ⟨attrs, []⟩)]
        (fun r => rowId r == some (REntity.eid ⟨attrs, l⟩)) =
        (rowId (readRow (to_df cfg ⟨attrs, []⟩)) ==
          some (REntity.eid ⟨attrs, l⟩)) from by
      rw [List.any_cons, List.any_nil, Bool.or_false]]
    rw [rowId_readRow_to_df cfg attrs [] newId hidl hnnil hrelid, hide]
    simp
  unfold mkR
  rw [hca, ebind_ok, hcr, ebind_ok]
  rw [if_neg (show ¬ ((alookup kwargs "id").isSome = true) from by
    rw [hid]; exact fun habs => Bool.noConfusion habs)]
  rw [hloop, ebind_ok]
  show (match alookup attrs cfg.relAttr with
    | some v => add_relationship_init cfg ⟨attrs, []⟩ v
        (io_store sf cfg.type (to_df cfg ⟨attrs, []⟩))
    | Option.none => Except.error Err.keyError) = _
  rw [hrel]
  show add_relationship_ids cfg ⟨attrs, []⟩ l
      (io_store sf cfg.type (to_df cfg ⟨attrs, []⟩)) = _
  unfold add_relationship_ids
  rw [if_neg hl]
  rw [addIds_all cfg _ l ⟨attrs, []⟩ hval, ebind_ok]
  show persist_rels cfg ⟨attrs, [] ++ l⟩
      (io_store sf cfg.type (to_df cfg ⟨attrs, []⟩)) = _
  rw [show ([] : List String) ++ l = l from List.nil_append _]
  unfold persist_rels update_in_store
  rw [show ({ (⟨attrs, l⟩ : REntity) with
      attrs := aupdate (⟨attrs, l⟩ : REntity).attrs cfg.relAttr
        (Value.vlist (⟨attrs, l⟩ : REntity).rels) } : REntity) = ⟨attrs, l⟩ from by
    rw [show aupdate (⟨attrs, l⟩ : REntity).attrs cfg.relAttr
        (Value.vlist (⟨attrs, l⟩ : REntity).rels) = attrs from
      aupdate_self_of_alookup attrs cfg.relAttr (Value.vlist l) hrel]]
  rw [io_update_ok _ cfg.type (REntity.eid ⟨attrs, l⟩) (to_df cfg ⟨attrs, l⟩) hrow]
  rfl

/-- Creating a payment against a well-formed group with the auto-fill fields
omitted: the beneficiary list becomes the decoded stored member list and the
descriptive fields get their placeholders. -/
theorem mkPayment_autofill (s : Store) (gid name mstr payer yid : String)
    (ms : List String) (amt : ℚ)
    (hg : GroupWF s gid name mstr ms) (hyid : yid ≠ "") :
    ∃ s', mkPayment [("payer_id", Value.str payer), ("group_id", Value.str gid),
        ("amount", Value.num amt)] yid true s =
      .ok (⟨[("payer_id", Value.str payer), ("group_id", Value.str gid),
             ("amount", Value.num amt), ("id", Value.str yid),
             ("paid_for", Value.vlist ms), ("currency", Value.str "AUD"),
             ("purpose", Value.str "That other thing, remember?"),
             ("comment", Value.str "You better pay me back soon"),
             ("location", Value.str "That place where we were")], ms⟩, s') := by
  obtain ⟨hgf, hgwf2, hpers2, hpay2⟩ := from_store_group_wf s gid name mstr ms hg
  obtain ⟨hfilter, hsplit, hjoin, hms, hpersons⟩ := hg
  have hfill1 : paymentFill
      [("payer_id", Value.str payer), ("group_id", Value.str gid),
       ("amount", Value.num amt), ("id", Value.str yid)] s "paid_for" =
      .ok (Value.vlist ms, groupReloadStore s gid name mstr) := by
    unfold paymentFill
    rw [if_pos rfl]
    rw [show (match alookup
        [("payer_id", Value.str payer), ("group_id", Value.str gid),
         ("amount", Value.num amt), ("id", Value.str yid)] "group_id" with
      | some (Value.str g) => g
      | _ => "") = gid from rfl]
    rw [hgf, emap_ok]
  have hstep1 : autoFillLoop paymentFill
      [("payer_id", Value.str payer), ("group_id", Value.str gid),
       ("amount", Value.num amt)]
      ["paid_for", "currency", "purpose", "comment", "location"]
      [("payer_id", Value.str payer), ("group_id", Value.str gid),
       ("amount", Value.num amt), ("id", Value.str yid)] s =
      autoFillLoop paymentFill
        [("payer_id", Value.str payer), ("group_id", Value.str gid),
         ("amount", Value.num amt)]
        ["currency", "purpose", "comment", "location"]
        [("payer_id", Value.str payer), ("group_id", Value.str gid),
         ("amount", Value.num amt), ("id", Value.str yid),
         ("paid_for", Value.vlist ms)] (groupReloadStore s gid name mstr) := by
    conv_lhs => unfold autoFillLoop
    rw [show alookup [("payer_id", Value.str payer), ("group_id", Value.str gid),
        ("amount", Value.num amt)] "paid_for" = Option.none from rfl]
    rw [hfill1, ebind_ok]
    rfl
  have hloop : autoFillLoop paymentFill
      [("payer_id", Value.str payer), ("group_id", Value.str gid),
       ("amount", Value.num amt)]
      paymentCfg.autoArgs
      (aupdate [("payer_id", Value.str payer), ("group_id", Value.str gid),
        ("amount", Value.num amt)] "id" (Value.str yid)) s =
      .ok ([("payer_id", Value.str payer), ("group_id", Value.str gid),
            ("amount", Value.num amt), ("id", Value.str yid),
            ("paid_for", Value.vlist ms), ("currency", Value.str "AUD"),
            ("purpose", Value.str "That other thing, remember?"),
            ("comment", Value.str "You better pay me back soon"),
            ("location", Value.str "That place where we were")],
        groupReloadStore s gid name mstr) := by
    show autoFillLoop paymentFill
      [("payer_id", Value.str payer), ("group_id", Value.str gid),
       ("amount", Value.num amt)]
      ["paid_for", "currency", "purpose", "comment", "location"]
      [("payer_id", Value.str payer), ("group_id", Value.str gid),
       ("amount", Value.num amt), ("id", Value.str yid)] s = _
    rw [hstep1]
    rw [autoFillLoop_placeholders
      [("payer_id", Value.str payer), ("group_id", Value.str gid),
       ("amount", Value.num amt)]
      (groupReloadStore s gid name mstr)
      ["currency", "purpose", "comment", "location"]
      [("payer_id", Value.str payer), ("group_id", Value.str gid),
       ("amount", Value.num amt), ("id", Value.str yid),
       ("paid_for", Value.vlist ms)]
      (by
        intro e he
        cases he with
        | head => exact ⟨rfl, by decide⟩
        | tail _ h1 =>
            cases h1 with
            | head => exact ⟨rfl, by decide⟩
            | tail _ h2 =>
                cases h2 with
                | head => exact ⟨rfl, by decide⟩
                | tail _ h3 =>
                    cases h3 with
                    | head => exact ⟨rfl, by decide⟩
                    | tail _ h4 => cases h4)]
    rfl
  have hval : ∀ x ∈ ms, is_type (io_store (groupReloadStore s gid name mstr)
      paymentCfg.type (to_df paymentCfg
        ⟨[("payer_id", Value.str payer), ("group_id", Value.str gid),
          ("amount", Value.num amt), ("id", Value.str yid),
          ("paid_for", Value.vlist ms), ("currency", Value.str "AUD"),
          ("purpose", Value.str "That other thing, remember?"),
          ("comment", Value.str "You better pay me back soon"),
          ("location", Value.str "That place where we were")], []⟩))
      paymentCfg.relType x = true := by
    intro x hx
    have ht : (io_store (groupReloadStore s gid name mstr)
        paymentCfg.type (to_df paymentCfg
          ⟨[("payer_id", Value.str payer), ("group_id", Value.str gid),
            ("amount", Value.num amt), ("id", Value.str yid),
            ("paid_for", Value.vlist ms), ("currency", Value.str "AUD"),
            ("purpose", Value.str "That other thing, remember?"),
            ("comment", Value.str "You better pay me back soon"),
            ("location", Value.str "That place where we were")], []⟩)).tbl
        Kind.person = Store.tbl s Kind.person := by
      unfold io_store
      rw [show paymentCfg.type = Kind.payment from rfl]
      rw [tbl_setTbl_ne _ Kind.payment Kind.person _
        (fun habs => Kind.noConfusion habs)]
      unfold groupReloadStore
      rw [show (Kind.group : Kind) = Kind.group from rfl]
      rw [tbl_setTbl_ne _ Kind.group Kind.person _
        (fun habs => Kind.noConfusion habs)]
    rw [show paymentCfg.relType = Kind.person from rfl]
    rw [is_type_of_tbl_eq s _ Kind.person x ht]
    exact hpersons x hx
  exact ⟨_, mkR_create paymentCfg paymentFill
    [("payer_id", Value.str payer), ("group_id", Value.str gid),
     ("amount", Value.num amt), ("id", Value.str yid),
     ("paid_for", Value.vlist ms), ("currency", Value.str "AUD"),
     ("purpose", Value.str "That other thing, remember?"),
     ("comment", Value.str "You better pay me back soon"),
     ("location", Value.str "That place where we were")]
    [("payer_id", Value.str payer), ("group_id", Value.str gid),
     ("amount", Value.num amt)]
    ms yid s (groupReloadStore s gid name mstr)
    rfl rfl rfl hloop rfl hms hval rfl hyid (by decide)⟩

theorem claim_C9_witness :
    ((Group.from_store S5 "g1" =
        .ok (⟨[("name", Value.str "Trip"), ("id", Value.str "g1"),
               ("members", Value.vlist ["p1", "p2"])], ["p1", "p2"]⟩,
             groupReloadStore S5 "g1" "Trip" "p1;p2")) ∧
      GroupWF (groupReloadStore S5 "g1" "Trip" "p1;p2") "g1" "Trip" "p1;p2"
        ["p1", "p2"] ∧
      (groupReloadStore S5 "g1" "Trip" "p1;p2").person = S5.person ∧
      (groupReloadStore S5 "g1" "Trip" "p1;p2").payment = S5.payment) ∧
    Person.from_store S0 "p1" =
      .ok (⟨[("name", Value.str "Ann"), ("id", Value.str "p1"),
             ("groups", Value.none)], []⟩, S0) :=
  claim_C9 S5 S0 "g1" "Trip" "p1;p2" "p1" "Ann" ["p1", "p2"] (by decide) (by decide)

theorem mat_eq_of (m1 m2 : Mat) (hr : m1.rows = m2.rows) (hc : m1.cols = m2.cols)
    (hv : ∀ a c, m1.val a c = m2.val a c) : m1 = m2 := by
  cases m1 with
  | mk r1 c1 v1 =>
      cases m2 with
      | mk r2 c2 v2 =>
          rw [Mat.mk.injEq]
          exact ⟨hr, hc, funext (fun a => funext (fun c => hv a c))⟩

theorem mat_fold_rows (payer : String) (q : ℚ) (pf : List String) (m0 : Mat)
    (hp : payer ∈ m0.rows) (hc : ∀ b ∈ pf, b ∈ m0.cols) :
    (pf.foldl (fun m b => mat_set_value m payer b q) m0).rows = m0.rows ∧
    (pf.foldl (fun m b => mat_set_value m payer b q) m0).cols = m0.cols := by
  induction pf generalizing m0 with
  | nil => exact ⟨rfl, rfl⟩
  | cons b rest ih =>
      rw [List.foldl_cons]
      have hrows : (mat_set_value m0 payer b q).rows = m0.rows := by
        show (if payer ∈ m0.rows then m0.rows else m0.rows ++ [payer]) = m0.rows
        rw [if_pos hp]
      have hcols : (mat_set_value m0 payer b q).cols = m0.cols := by
        show (if b ∈ m0.cols then m0.cols else m0.cols ++ [b]) = m0.cols
        rw [if_pos (hc b (List.mem_cons_self _ _))]
      obtain ⟨h1, h2⟩ := ih (mat_set_value m0 payer b q)
        (by rw [hrows]; exact hp)
        (fun x hx => by rw [hcols]; exact hc x (List.mem_cons_of_mem _ hx))
      rw [h1, h2, hrows, hcols]
      exact ⟨rfl, rfl⟩

theorem mat_fold_val (payer : String) (q : ℚ) (pf : List String) (m0 : Mat)
    (a c : String) :
    (pf.foldl (fun m b => mat_set_value m payer b q) m0).val a c =
      if a = payer ∧ c ∈ pf then some q else m0.val a c := by
  induction pf generalizing m0 with
  | nil =>
      rw [List.foldl_nil]
      rw [if_neg (fun h => List.not_mem_nil c h.2)]
  | cons b rest ih =>
      rw [List.foldl_cons, ih]
      by_cases h1 : a = payer ∧ c ∈ rest
      · rw [if_pos h1, if_pos ⟨h1.1, List.mem_cons_of_mem _ h1.2⟩]
      · rw [if_neg h1]
        show (if a = payer ∧ c = b then some q else m0.val a c) = _
        by_cases h2 : a = payer ∧ c = b
        · rw [if_pos h2,
            if_pos ⟨h2.1, by rw [h2.2]; exact List.mem_cons_self _ _⟩]
        · rw [if_neg h2]
          rw [if_neg (fun h3 => by
            cases h3.2 with
            | head => exact h2 ⟨h3.1, rfl⟩
            | tail _ hm => exact h1 ⟨h3.1, hm⟩)]

theorem alignIdx_self (a : List String) : alignIdx a a = a := by
  unfold alignIdx
  rw [if_pos rfl]

/-- Payment.to_matrix on a payment whose payer and beneficiaries all lie in
the well-formed member list of its group: the square frame over the stored
member list, an even split from the payer to each beneficiary, zero on every
other held cell, and the usual group-table rewrite of the reconstruction. -/
theorem to_matrix_char (s : Store) (gid name mstr payer : String)
    (ms pf : List String) (amt : ℚ) (p : REntity)
    (hg : GroupWF s gid name mstr ms)
    (hgid : alookup p.attrs "group_id" = some (Value.str gid))
    (hpf : alookup p.attrs "paid_for" = some (Value.vlist pf))
    (hamt : alookup p.attrs "amount" = some (Value.num amt))
    (hpayer : alookup p.attrs "payer_id" = some (Value.str payer))
    (hpm : payer ∈ ms)
    (hsub : ∀ b ∈ pf, b ∈ ms) :
    to_matrix p s =
      .ok (⟨ms, ms, fun a c =>
          if a = payer ∧ c ∈ pf then some (amt / (pf.length : ℚ))
          else if a ∈ ms ∧ c ∈ ms then some 0 else Option.none⟩,
        groupReloadStore s gid name mstr) := by
  obtain ⟨hgf, hw2, hw3, hw4⟩ := from_store_group_wf s gid name mstr ms hg
  have hfold : pf.foldl (fun m b => mat_set_value m payer b (amt / (pf.length : ℚ)))
      (zeroMat ms) = ⟨ms, ms, fun a c =>
        if a = payer ∧ c ∈ pf then some (amt / (pf.length : ℚ))
        else if a ∈ ms ∧ c ∈ ms then some 0 else Option.none⟩ := by
    obtain ⟨hr, hc⟩ := mat_fold_rows payer (amt / (pf.length : ℚ)) pf (zeroMat ms)
      hpm hsub
    refine mat_eq_of _ _ ?_ ?_ ?_
    · rw [hr]
      rfl
    · rw [hc]
      rfl
    · intro a c
      rw [mat_fold_val]
      show _ = if a = payer ∧ c ∈ pf then some (amt / (pf.length : ℚ))
        else if a ∈ ms ∧ c ∈ ms then some 0 else Option.none
      by_cases h1 : a = payer ∧ c ∈ pf
      · rw [if_pos h1, if_pos h1]
      · rw [if_neg h1, if_neg h1]
        rfl
  unfold to_matrix
  rw [hgid, hpf, hamt, hpayer]
  show (Group.from_store s gid >>= fun gs =>
    Except.ok (pf.foldl (fun m b => mat_set_value m payer b (amt / (pf.length : ℚ)))
      (zeroMat gs.1.rels), gs.2)) = _
  rw [hgf, ebind_ok]
  show Except.ok (pf.foldl (fun m b => mat_set_value m payer b (amt / (pf.length : ℚ)))
      (zeroMat ms), groupReloadStore s gid name mstr) = _
  rw [hfold]

/-- C6 counterexample: a payment whose payer is not a member of the group
(nothing validates the payer id at creation) yields a frame enlarged by the
payer label, so toMatrix is not a square matrix indexed by the member
list. -/
theorem claim_C6_cex :
    (to_matrix ⟨[("payer_id", Value.str "p9"), ("group_id", Value.str "g1"),
        ("amount", Value.num 10), ("id", Value.str "y1"),
        ("paid_for", Value.vlist ["p1"])], ["p1"]⟩ S5).map
      (fun pr => (pr.1.rows, pr.1.cols)) =
      .ok (["p1", "p2", "p9"], ["p1", "p2"]) := by
  decide

/-- C6: for a payment of a well-formed group whose payer and beneficiaries
all lie in the member list, toMatrix is the square frame over the stored
member list with amount / count(beneficiaries) at (payer, b) for every
beneficiary b — set by overwriting, so a duplicated beneficiary still gets
the single even share — and zero on every other held cell. -/
theorem claim_C6 (s : Store) (gid name mstr payer : String)
    (ms pf : List String) (amt : ℚ) (p : REntity)
    (hg : GroupWF s gid name mstr ms)
    (hgid : alookup p.attrs "group_id" = some (Value.str gid))
    (hpf : alookup p.attrs "paid_for" = some (Value.vlist pf))
    (hamt : alookup p.attrs "amount" = some (Value.num amt))
    (hpayer : alookup p.attrs "payer_id" = some (Value.str payer))
    (hpm : payer ∈ ms)
    (hsub : ∀ b ∈ pf, b ∈ ms) :
    to_matrix p s =
      .ok (⟨ms, ms, fun a c =>
          if a = payer ∧ c ∈ pf then some (amt / (pf.length : ℚ))
          else if a ∈ ms ∧ c ∈ ms then some 0 else Option.none⟩,
        groupReloadStore s gid name mstr) :=
  to_matrix_char s gid name mstr payer ms pf amt p hg hgid hpf hamt hpayer hpm hsub

theorem claim_C6_witness :
    to_matrix ⟨[("payer_id", Value.str "p1"), ("group_id", Value.str "g1"),
        ("amount", Value.num 10), ("id", Value.str "y7"),
        ("paid_for", Value.vlist ["p1", "p2"])], ["p1", "p2"]⟩ S5 =
      .ok (⟨["p1", "p2"], ["p1", "p2"], fun a c =>
          if a = "p1" ∧ c ∈ ["p1", "p2"]
          then some ((10 : ℚ) / ((["p1", "p2"] : List String).length : ℚ))
          else if a ∈ ["p1", "p2"] ∧ c ∈ ["p1", "p2"] then some 0
          else Option.none⟩,
        groupReloadStore S5 "g1" "Trip" "p1;p2") :=
  claim_C6 S5 "g1" "Trip" "p1;p2" "p1" ["p1", "p2"] ["p1", "p2"] 10
    ⟨[("payer_id", Value.str "p1"), ("group_id", Value.str "g1"),
      ("amount", Value.num 10), ("id", Value.str "y7"),
      ("paid_for", Value.vlist ["p1", "p2"])], ["p1", "p2"]⟩
    (by decide) (by decide) (by decide) (by decide) (by decide) (by decide)
    (by decide)

/-- C5 counterexample: a beneficiary list explicitly supplied as None is
overwritten by the auto-fill with the group member list, so auto-fill does
overwrite this explicitly supplied value. -/
theorem claim_C5_cex :
    (mkPayment [("payer_id", Value.str "p1"), ("group_id", Value.str "g1"),
        ("amount", Value.num 10), ("paid_for", Value.none)] "y9" true S5).map
      (fun pr => alookup pr.1.attrs "paid_for") =
      .ok (some (Value.vlist ["p1", "p2"])) := by
  decide

/-- C5: a payment created with the auto-fill fields omitted gets the stored
member list of its group as beneficiary list and the fixed placeholder
strings for the descriptive fields; the auto-fill pass leaves every argument
map whose declared auto-fill fields are present with non-None values
untouched; and update_attributes merges without ever auto-filling. -/
theorem claim_C5 (s : Store) (gid name mstr payer yid : String) (ms : List String)
    (amt : ℚ) (hg : GroupWF s gid name mstr ms) (hyid : yid ≠ "") :
    (∃ s', mkPayment [("payer_id", Value.str payer), ("group_id", Value.str gid),
        ("amount", Value.num amt)] yid true s =
      .ok (⟨[("payer_id", Value.str payer), ("group_id", Value.str gid),
             ("amount", Value.num amt), ("id", Value.str yid),
             ("paid_for", Value.vlist ms), ("currency", Value.str "AUD"),
             ("purpose", Value.str "That other thing, remember?"),
             ("comment", Value.str "You better pay me back soon"),
             ("location", Value.str "That place where we were")], ms⟩, s')) ∧
    (∀ (fill : AutoFill) (kwargs attrs : Attrs) (s0 : Store),
        (∀ elem ∈ paymentCfg.autoArgs, alookup kwargs elem ≠ Option.none ∧
            alookup kwargs elem ≠ some Value.none) →
        autoFillLoop fill kwargs paymentCfg.autoArgs attrs s0 = .ok (attrs, s0)) ∧
    (∀ (cfg : EngineCfg) (e : REntity) (kwargs : Attrs) (s0 : Store)
        (pr : REntity × Store),
        update_attributes cfg e kwargs s0 = .ok pr →
        pr.1.attrs = amerge e.attrs kwargs) := by
  refine ⟨mkPayment_autofill s gid name mstr payer yid ms amt hg hyid, ?_, ?_⟩
  · intro fill kwargs attrs s0 h
    exact autoFillLoop_skip fill kwargs paymentCfg.autoArgs attrs s0 h
  · intro cfg e kwargs s0 pr h
    unfold update_attributes at h
    cases hca : check_args cfg kwargs with
    | error e0 =>
        rw [hca, ebind_err] at h
        exact Except.noConfusion h
    | ok u =>
        cases u
        rw [hca, ebind_ok] at h
        cases hio : update_in_store s0 cfg { e with attrs := amerge e.attrs kwargs } with
        | error e0 =>
            rw [hio, emap_err] at h
            exact Except.noConfusion h
        | ok s2 =>
            rw [hio, emap_ok] at h
            injection h with h2
            rw [← h2]

theorem claim_C5_witness :
    (∃ s', mkPayment [("payer_id", Value.str "p1"), ("group_id", Value.str "g1"),
        ("amount", Value.num 10)] "y7" true S5 =
      .ok (⟨[("payer_id", Value.str "p1"), ("group_id", Value.str "g1"),
             ("amount", Value.num 10), ("id", Value.str "y7"),
             ("paid_for", Value.vlist ["p1", "p2"]),
             ("currency", Value.str "AUD"),
             ("purpose", Value.str "That other thing, remember?"),
             ("comment", Value.str "You better pay me back soon"),
             ("location", Value.str "That place where we were")],
            ["p1", "p2"]⟩, s')) ∧
    autoFillLoop paymentFill
      [("payer_id", Value.str "p1"), ("group_id", Value.str "g1"),
       ("amount", Value.num 10), ("id", Value.str "y8"),
       ("paid_for", Value.vlist ["p2"]), ("currency", Value.str "EUR"),
       ("purpose", Value.str "gift"), ("comment", Value.str "thanks"),
       ("location", Value.str "home")]
      paymentCfg.autoArgs
      [("payer_id", Value.str "p1"), ("group_id", Value.str "g1"),
       ("amount", Value.num 10), ("id", Value.str "y8"),
       ("paid_for", Value.vlist ["p2"]), ("currency", Value.str "EUR"),
       ("purpose", Value.str "gift"), ("comment", Value.str "thanks"),
       ("location", Value.str "home")] S5 =
      .ok ([("payer_id", Value.str "p1"), ("group_id", Value.str "g1"),
            ("amount", Value.num 10), ("id", Value.str "y8"),
            ("paid_for", Value.vlist ["p2"]), ("currency", Value.str "EUR"),
            ("purpose", Value.str "gift"), ("comment", Value.str "thanks"),
            ("location", Value.str "home")], S5) ∧
    (okOr (P0, S2) (update_attributes personCfg P1
        [("name", Value.str "Anna")] S2)).1.attrs =
      amerge P1.attrs [("name", Value.str "Anna")] :=
  ⟨(claim_C5 S5 "g1" "Trip" "p1;p2" "p1" "y7" ["p1", "p2"] 10
      (by decide) (by decide)).1,
   (claim_C5 S5 "g1" "Trip" "p1;p2" "p1" "y7" ["p1", "p2"] 10
      (by decide) (by decide)).2.1 paymentFill
     [("payer_id", Value.str "p1"), ("group_id", Value.str "g1"),
      ("amount", Value.num 10), ("id", Value.str "y8"),
      ("paid_for", Value.vlist ["p2"]), ("currency", Value.str "EUR"),
      ("purpose", Value.str "gift"), ("comment", Value.str "thanks"),
      ("location", Value.str "home")]
     [("payer_id", Value.str "p1"), ("group_id", Value.str "g1"),
      ("amount", Value.num 10), ("id", Value.str "y8"),
      ("paid_for", Value.vlist ["p2"]), ("currency", Value.str "EUR"),
      ("purpose", Value.str "gift"), ("comment", Value.str "thanks"),
      ("location", Value.str "home")] S5 (by decide),
   (claim_C5 S5 "g1" "Trip" "p1;p2" "p1" "y7" ["p1", "p2"] 10
      (by decide) (by decide)).2.2 personCfg P1 [("name", Value.str "Anna")] S2
     (okOr (P0, S2) (update_attributes personCfg P1
        [("name", Value.str "Anna")] S2)) (by decide)⟩

theorem valueOfCell_ne_none (c : Cell) : valueOfCell c ≠ Value.none := by
  cases c with
  | str s0 => exact fun h => Value.noConfusion h
  | num q => exact fun h => Value.noConfusion h
  | nan => exact fun h => Value.noConfusion h

theorem allowed_scalar_valueOfCell (c : Cell) : allowed_scalar (valueOfCell c) = true := by
  cases c with
  | str s0 => rfl
  | num q => rfl
  | nan => rfl

theorem rowGet_of_rowId (r : Row) (i : String) (h : rowId r = some i) :
    rowGet r "id" = some (Cell.str i) := by
  unfold rowId at h
  cases hg : rowGet r "id" with
  | none =>
      rw [hg] at h
      exact Option.noConfusion h
  | some c =>
      cases c with
      | str s0 =>
          rw [hg] at h
          rw [show s0 = i from Option.some.inj h]
      | num q =>
          rw [hg] at h
          exact Option.noConfusion h
      | nan =>
          rw [hg] at h
          exact Option.noConfusion h

theorem any_filter_ne (t : Table) (pid x : String) (hx : x ≠ pid) :
    (t.filter (fun r => !(rowId r == some pid))).any (fun r => rowId r == some x) =
      t.any (fun r => rowId r == some x) := by
  induction t with
  | nil => rfl
  | cons r rest ih =>
      rw [List.filter_cons]
      by_cases hr : rowId r = some pid
      · rw [if_neg (show ¬((!(rowId r == some pid)) = true) from by
          rw [show (rowId r == some pid) = true from beq_iff_eq.mpr hr]
          exact fun h => Bool.noConfusion h)]
        rw [ih, List.any_cons]
        rw [show (rowId r == some x) = false from beq_eq_false_iff_ne.mpr
          (fun h2 => hx (Option.some.inj (by rw [hr] at h2; exact h2)).symm)]
        rw [Bool.false_or]
      · rw [if_pos (show (!(rowId r == some pid)) = true from by
          rw [show (rowId r == some pid) = false from beq_eq_false_iff_ne.mpr hr]
          rfl)]
        rw [List.any_cons, List.any_cons, ih]

theorem hasRow_update (s : Store) (k : Kind) (pid : String) (row : Row) (x : String)
    (hrid : rowId (readRow row) = some pid)
    (hpid : hasRow s k pid = true) :
    hasRow (s.setTbl k (saveTable ((retrieve_entity_list s k).filter
      (fun r => !(rowId r == some pid)) ++ [row]))) k x = hasRow s k x := by
  unfold hasRow
  rw [retrieve_io_update, List.any_append]
  rw [show List.any [readRow row] (fun r => rowId r == some x) =
      (rowId (readRow row) == some x) from by
    rw [List.any_cons, List.any_nil, Bool.or_false]]
  rw [hrid]
  by_cases hx : x = pid
  · rw [show (some pid == some x) = true from beq_iff_eq.mpr (by rw [hx]),
      Bool.or_true]
    unfold hasRow at hpid
    rw [← hx] at hpid
    rw [hpid]
  · rw [show (some pid == some x) = false from beq_eq_false_iff_ne.mpr
      (fun h2 => hx (Option.some.inj h2).symm)]
    rw [Bool.or_false]
    exact any_filter_ne _ pid x hx

theorem mapM_ok {α β : Type} (f : α → Except Err β) (g : α → β) (l : List α)
    (h : ∀ a ∈ l, f a = .ok (g a)) : l.mapM f = .ok (l.map g) := by
  induction l with
  | nil => rfl
  | cons a rest ih =>
      rw [List.mapM_cons, h a (List.mem_cons_self _ _), ebind_ok,
        ih (fun x hx => h x (List.mem_cons_of_mem _ hx)), ebind_ok]
      rfl

theorem retrieve_payments_ok (s : Store) (gid : String) (ms : List String)
    (h : ∀ r ∈ pmRows s gid, PayRowWF s gid ms r) :
    retrieve_payments_data_for_group s gid = .ok ((pmRows s gid).map dictOf) := by
  show (pmRows s gid).mapM _ = _
  refine mapM_ok _ dictOf _ ?_
  intro r hr
  obtain ⟨h1, h2, h3, h4, h5, h6, h7, h8, h9, h10, h11, h12, h13, h14, h15⟩ := h r hr
  rw [show alookup (r.map (fun p => (p.1, valueOfCell p.2))) "paid_for" =
      some (Value.str (rowPStr r)) from by
    rw [alookup_map_value, h8]
    rfl]
  rfl

theorem dictOf_id (r : Row) (hid2 : rowId r = some (rowPid r)) :
    alookup (dictOf r) "id" = some (Value.str (rowPid r)) := by
  unfold dictOf
  rw [alookup_aupdate_ne _ _ _ _ (show "id" ≠ "paid_for" by decide),
    alookup_map_value, rowGet_of_rowId r _ hid2]
  rfl

theorem dictOf_row_id (r : Row) (hid2 : rowId r = some (rowPid r))
    (hp : rowPid r ≠ "") (l : List String) :
    rowId (readRow (to_df paymentCfg ⟨dictOf r, l⟩)) = some (rowPid r) :=
  rowId_readRow_to_df paymentCfg (dictOf r) l (rowPid r) (dictOf_id r hid2) hp
    (by decide)

theorem GroupWF_of_tbl_eq (s s' : Store) (gid name mstr : String) (ms : List String)
    (hgt : s'.tbl Kind.group = s.tbl Kind.group)
    (hpt : s'.tbl Kind.person = s.tbl Kind.person)
    (h : GroupWF s gid name mstr ms) : GroupWF s' gid name mstr ms := by
  obtain ⟨h1, h2, h3, h4, h5⟩ := h
  refine ⟨?_, h2, h3, h4, ?_⟩
  · show (readTable (s'.tbl Kind.group)).filter (fun r => rowId r == some gid) = _
    rw [hgt]
    exact h1
  · intro m hm
    rw [is_type_of_tbl_eq s s' Kind.person m hpt]
    exact h5 m hm

/-- Reconstructing one stored payment row (the Group.payments path): the
dictionary round-trips into the entity and the payment table is
update-written with the fresh row of the same id. -/
theorem mkPayment_reload (s sj : Store) (gid : String) (ms : List String) (r : Row)
    (hwf : PayRowWF s gid ms r)
    (hperson : sj.tbl Kind.person = s.tbl Kind.person)
    (hhas : ∀ x, hasRow sj Kind.payment x = hasRow s Kind.payment x) :
    mkPayment (dictOf r) "" false sj =
      .ok (⟨dictOf r, rowPaidFor r⟩,
        sj.setTbl Kind.payment (saveTable ((retrieve_entity_list sj Kind.payment).filter
          (fun r2 => !(rowId r2 == some (rowPid r))) ++
          [to_df paymentCfg ⟨dictOf r, rowPaidFor r⟩]))) := by
  obtain ⟨h1, h2, h3, h4, h5, h6, h7, h8, h9, h10, h11, h12, h13, h14, h15⟩ := hwf
  have hlk : ∀ k, k ≠ "paid_for" →
      alookup (dictOf r) k = (rowGet r k).map valueOfCell := by
    intro k hk
    unfold dictOf
    rw [alookup_aupdate_ne _ _ _ _ hk, alookup_map_value]
  have hrel : alookup (dictOf r) "paid_for" = some (Value.vlist (rowPaidFor r)) := by
    unfold dictOf
    rw [alookup_aupdate_self]
    rw [show splitOnSemi (rowPStr r) = rowPaidFor r from by
      unfold rowPaidFor
      rw [h8]]
  have hidl : alookup (dictOf r) "id" = some (Value.str (rowPid r)) :=
    dictOf_id r h2
  have heid : REntity.eid ⟨dictOf r, rowPaidFor r⟩ = rowPid r := by
    unfold REntity.eid
    rw [show alookup (⟨dictOf r, rowPaidFor r⟩ : REntity).attrs "id" =
      some (Value.str (rowPid r)) from hidl]
  have hca : check_args paymentCfg (dictOf r) = .ok () := by
    apply check_args_of_all
    intro p hp
    cases mem_aupdate _ _ _ _ hp with
    | inl hin =>
        obtain ⟨q, hq, hq2⟩ := List.mem_map.mp hin
        rw [← hq2]
        show ((q.1 == paymentCfg.relAttr && (valueOfCell q.2 == Value.none ||
          isVlist (valueOfCell q.2))) || allowed_scalar (valueOfCell q.2)) = true
        rw [allowed_scalar_valueOfCell q.2, Bool.or_true]
    | inr hpv =>
        rw [hpv]
        rfl
  have hcr : check_required paymentCfg (dictOf r) = .ok () := by
    apply check_required_of
    intro k hk
    cases hk with
    | head =>
        rw [hlk "payer_id" (by decide), h5]
        rfl
    | tail _ hk2 =>
        cases hk2 with
        | head =>
            rw [hlk "group_id" (by decide), h1]
            rfl
        | tail _ hk3 =>
            cases hk3 with
            | head =>
                rw [hlk "amount" (by decide), h7]
                rfl
            | tail _ hk4 => cases hk4
  have hidsome : (alookup (dictOf r) "id").isSome = true := by
    rw [hidl]
    rfl
  have hauto : ∀ elem ∈ paymentCfg.autoArgs,
      alookup (dictOf r) elem ≠ Option.none ∧
      alookup (dictOf r) elem ≠ some Value.none := by
    intro elem he
    cases he with
    | head =>
        refine ⟨?_, ?_⟩
        · rw [hrel]
          exact fun h => Option.noConfusion h
        · rw [hrel]
          exact fun h => Value.noConfusion (Option.some.inj h)
    | tail _ he2 =>
        cases he2 with
        | head =>
            obtain ⟨c, hc⟩ := Option.isSome_iff_exists.mp h12
            refine ⟨?_, ?_⟩
            · rw [hlk "currency" (by decide), hc]
              exact fun h => Option.noConfusion h
            · rw [hlk "currency" (by decide), hc]
              exact fun h => valueOfCell_ne_none c (Option.some.inj h)
        | tail _ he3 =>
            cases he3 with
            | head =>
                obtain ⟨c, hc⟩ := Option.isSome_iff_exists.mp h13
                refine ⟨?_, ?_⟩
                · rw [hlk "purpose" (by decide), hc]
                  exact fun h => Option.noConfusion h
                · rw [hlk "purpose" (by decide), hc]
                  exact fun h => valueOfCell_ne_none c (Option.some.inj h)
            | tail _ he4 =>
                cases he4 with
                | head =>
                    obtain ⟨c, hc⟩ := Option.isSome_iff_exists.mp h14
                    refine ⟨?_, ?_⟩
                    · rw [hlk "comment" (by decide), hc]
                      exact fun h => Option.noConfusion h
                    · rw [hlk "comment" (by decide), hc]
                      exact fun h => valueOfCell_ne_none c (Option.some.inj h)
                | tail _ he5 =>
                    cases he5 with
                    | head =>
                        obtain ⟨c, hc⟩ := Option.isSome_iff_exists.mp h15
                        refine ⟨?_, ?_⟩
                        · rw [hlk "location" (by decide), hc]
                          exact fun h => Option.noConfusion h
                        · rw [hlk "location" (by decide), hc]
                          exact fun h => valueOfCell_ne_none c (Option.some.inj h)
                    | tail _ he6 => cases he6
  have hval : ∀ x ∈ rowPaidFor r, is_type sj paymentCfg.relType x = true := by
    intro x hx
    rw [show paymentCfg.relType = Kind.person from rfl]
    rw [is_type_of_tbl_eq s sj Kind.person x hperson]
    exact h11 x hx
  have hrow : hasRow sj paymentCfg.type
      (REntity.eid ⟨dictOf r, rowPaidFor r⟩) = true := by
    rw [show paymentCfg.type = Kind.payment from rfl, heid, hhas (rowPid r)]
    exact h4
  have hmk := mkR_reload paymentCfg paymentFill (dictOf r) (rowPaidFor r) "" sj
    hca hcr hidsome hauto hrel h9 hval hrow
  rw [heid] at hmk
  rw [show paymentCfg.type = Kind.payment from rfl] at hmk
  exact hmk

theorem payments_fold_ok (s : Store) (gid : String) (ms : List String)
    (rows : Table) (sj : Store) (acc : List REntity)
    (hrows : ∀ r ∈ rows, PayRowWF s gid ms r)
    (hperson : sj.tbl Kind.person = s.tbl Kind.person)
    (hgrp : sj.tbl Kind.group = s.tbl Kind.group)
    (hhas : ∀ x, hasRow sj Kind.payment x = hasRow s Kind.payment x) :
    ∃ sF, ((rows.map dictOf).foldlM (fun (a : List REntity × Store) dct =>
        (mkPayment dct "" false a.2).map (fun ps => (a.1 ++ [ps.1], ps.2)))
        (acc, sj)) =
      .ok (acc ++ rows.map (fun r => (⟨dictOf r, rowPaidFor r⟩ : REntity)), sF) ∧
      sF.tbl Kind.person = s.tbl Kind.person ∧
      sF.tbl Kind.group = s.tbl Kind.group ∧
      (∀ x, hasRow sF Kind.payment x = hasRow s Kind.payment x) := by
  induction rows generalizing sj acc with
  | nil =>
      refine ⟨sj, ?_, hperson, hgrp, hhas⟩
      rw [List.map_nil, List.foldlM_nil, List.map_nil, List.append_nil]
      rfl
  | cons r rest ih =>
      obtain ⟨h1, h2, h3, h4, h5, h6, h7, h8, h9, h10, h11, h12, h13, h14, h15⟩ :=
        hrows r (List.mem_cons_self _ _)
      have hmk := mkPayment_reload s sj gid ms r (hrows r (List.mem_cons_self _ _))
        hperson hhas
      generalize hs2 : sj.setTbl Kind.payment
        (saveTable ((retrieve_entity_list sj Kind.payment).filter
          (fun r2 => !(rowId r2 == some (rowPid r))) ++
          [to_df paymentCfg ⟨dictOf r, rowPaidFor r⟩])) = s2 at hmk
      have hperson2 : s2.tbl Kind.person = s.tbl Kind.person := by
        rw [← hs2]
        rw [tbl_setTbl_ne sj Kind.payment Kind.person _
          (fun habs => Kind.noConfusion habs)]
        exact hperson
      have hgrp2 : s2.tbl Kind.group = s.tbl Kind.group := by
        rw [← hs2]
        rw [tbl_setTbl_ne sj Kind.payment Kind.group _
          (fun habs => Kind.noConfusion habs)]
        exact hgrp
      have hhas2 : ∀ x, hasRow s2 Kind.payment x = hasRow s Kind.payment x := by
        intro x
        rw [← hs2]
        rw [hasRow_update sj Kind.payment (rowPid r)
          (to_df paymentCfg ⟨dictOf r, rowPaidFor r⟩) x
          (dictOf_row_id r h2 h3 (rowPaidFor r))
          (by rw [hhas (rowPid r)]; exact h4)]
        exact hhas x
      obtain ⟨sF, hfold, hp3, hg3, hh3⟩ := ih s2
        (acc ++ [⟨dictOf r, rowPaidFor r⟩])
        (fun r2 hr2 => hrows r2 (List.mem_cons_of_mem _ hr2))
        hperson2 hgrp2 hhas2
      refine ⟨sF, ?_, hp3, hg3, hh3⟩
      rw [List.map_cons, List.foldlM_cons, hmk, emap_ok, ebind_ok, hfold]
      rw [List.append_assoc]
      rfl

/-- toMatrix of a reconstructed stored payment row of a well-formed group:
the square frame holds exactly the per-payment contribution of the row. -/
theorem to_matrix_row (s0 t : Store) (gid name mstr : String) (ms : List String)
    (r : Row) (hwf : PayRowWF s0 gid ms r)
    (hg : GroupWF t gid name mstr ms) :
    to_matrix ⟨dictOf r, rowPaidFor r⟩ t =
      .ok (⟨ms, ms, fun a b => if a ∈ ms ∧ b ∈ ms then some (contrib r a b)
            else Option.none⟩, groupReloadStore t gid name mstr) := by
  obtain ⟨h1, h2, h3, h4, h5, h6, h7, h8, h9, h10, h11, h12, h13, h14, h15⟩ := hwf
  have hlk : ∀ k, k ≠ "paid_for" →
      alookup (dictOf r) k = (rowGet r k).map valueOfCell := by
    intro k hk
    unfold dictOf
    rw [alookup_aupdate_ne _ _ _ _ hk, alookup_map_value]
  have hrel : alookup (dictOf r) "paid_for" = some (Value.vlist (rowPaidFor r)) := by
    unfold dictOf
    rw [alookup_aupdate_self]
    rw [show splitOnSemi (rowPStr r) = rowPaidFor r from by
      unfold rowPaidFor
      rw [h8]]
  rw [to_matrix_char t gid name mstr (rowPayer r) ms (rowPaidFor r) (rowAmt r)
    ⟨dictOf r, rowPaidFor r⟩ hg
    (by
      show alookup (dictOf r) "group_id" = some (Value.str gid)
      rw [hlk "group_id" (by decide), h1]
      rfl)
    (by
      show alookup (dictOf r) "paid_for" = some (Value.vlist (rowPaidFor r))
      exact hrel)
    (by
      show alookup (dictOf r) "amount" = some (Value.num (rowAmt r))
      rw [hlk "amount" (by decide), h7]
      rfl)
    (by
      show alookup (dictOf r) "payer_id" = some (Value.str (rowPayer r))
      rw [hlk "payer_id" (by decide), h5]
      rfl)
    h6 h10]
  rw [show (⟨ms, ms, fun a c =>
      if a = rowPayer r ∧ c ∈ rowPaidFor r
      then some (rowAmt r / ((rowPaidFor r).length : ℚ))
      else if a ∈ ms ∧ c ∈ ms then some 0 else Option.none⟩ : Mat) =
    ⟨ms, ms, fun a b => if a ∈ ms ∧ b ∈ ms then some (contrib r a b)
      else Option.none⟩ from mat_eq_of _ _ rfl rfl (fun a c => by
    show (if a = rowPayer r ∧ c ∈ rowPaidFor r
        then some (rowAmt r / ((rowPaidFor r).length : ℚ))
        else if a ∈ ms ∧ c ∈ ms then some 0 else Option.none) =
      (if a ∈ ms ∧ c ∈ ms then some (contrib r a c) else Option.none)
    by_cases h01 : a = rowPayer r ∧ c ∈ rowPaidFor r
    · rw [if_pos h01]
      rw [if_pos ⟨by rw [h01.1]; exact h6, h10 c h01.2⟩]
      unfold contrib
      rw [if_pos h01]
    · rw [if_neg h01]
      by_cases h02 : a ∈ ms ∧ c ∈ ms
      · rw [if_pos h02, if_pos h02]
        unfold contrib
        rw [if_neg h01]
      · rw [if_neg h02, if_neg h02])]

theorem summarize_fold (s0 : Store) (gid name mstr : String) (ms : List String)
    (rows : Table) (t : Store) (F : String → String → ℚ)
    (hrows : ∀ r ∈ rows, PayRowWF s0 gid ms r)
    (hg : GroupWF t gid name mstr ms) :
    ∃ tF, ((rows.map (fun r => (⟨dictOf r, rowPaidFor r⟩ : REntity))).foldlM
        (fun (acc : Mat × Store) p =>
          (to_matrix p acc.2).map (fun mp => (madd acc.1 mp.1, mp.2)))
        (⟨ms, ms, fun a b => if a ∈ ms ∧ b ∈ ms then some (F a b)
           else Option.none⟩, t)) =
      .ok (⟨ms, ms, fun a b => if a ∈ ms ∧ b ∈ ms
            then some (rows.foldl (fun acc r => acc + contrib r a b) (F a b))
            else Option.none⟩, tF) ∧
      GroupWF tF gid name mstr ms := by
  induction rows generalizing t F with
  | nil =>
      refine ⟨t, ?_, hg⟩
      rw [List.map_nil, List.foldlM_nil]
      rfl
  | cons r rest ih =>
      have hwf := hrows r (List.mem_cons_self _ _)
      obtain ⟨hgf2, hw2, hw3, hw4⟩ := from_store_group_wf t gid name mstr ms hg
      have htm := to_matrix_row s0 t gid name mstr ms r hwf hg
      have hmadd : madd
          ⟨ms, ms, fun a b => if a ∈ ms ∧ b ∈ ms then some (F a b)
            else Option.none⟩
          ⟨ms, ms, fun a b => if a ∈ ms ∧ b ∈ ms then some (contrib r a b)
            else Option.none⟩ =
          ⟨ms, ms, fun a b => if a ∈ ms ∧ b ∈ ms
            then some (F a b + contrib r a b) else Option.none⟩ := by
        refine mat_eq_of _ _ ?_ ?_ ?_
        · show alignIdx ms ms = ms
          exact alignIdx_self ms
        · show alignIdx ms ms = ms
          exact alignIdx_self ms
        · intro a b
          show (match (if a ∈ ms ∧ b ∈ ms then some (F a b) else Option.none),
              (if a ∈ ms ∧ b ∈ ms then some (contrib r a b) else Option.none) with
            | some x, some y => some (x + y)
            | _, _ => Option.none) =
            (if a ∈ ms ∧ b ∈ ms then some (F a b + contrib r a b)
             else Option.none)
          by_cases hP : a ∈ ms ∧ b ∈ ms
          · rw [if_pos hP, if_pos hP, if_pos hP]
          · rw [if_neg hP, if_neg hP, if_neg hP]
      obtain ⟨tF, hfold, hwF⟩ := ih (groupReloadStore t gid name mstr)
        (fun a b => F a b + contrib r a b)
        (fun r2 hr2 => hrows r2 (List.mem_cons_of_mem _ hr2)) hw2
      refine ⟨tF, ?_, hwF⟩
      rw [List.map_cons, List.foldlM_cons, htm, emap_ok, ebind_ok, hmadd]
      exact hfold

/-- C7: Group.summarize_payments over a well-formed group is the square
frame over the member list holding in each held cell the sum of the
per-payment contributions of every stored payment row of the group, and the
zero-payment case is the all-zero square frame over the member list with the
store untouched. -/
theorem claim_C7 (s : Store) (gid name mstr : String) (ms : List String)
    (g : REntity)
    (hg : GroupWF s gid name mstr ms)
    (hid : REntity.eid g = gid)
    (hrels : g.rels = ms)
    (hrows : ∀ r ∈ pmRows s gid, PayRowWF s gid ms r) :
    (∃ sF, summarize_payments g s =
        .ok (⟨ms, ms, fun a b => if a ∈ ms ∧ b ∈ ms
              then some ((pmRows s gid).foldl (fun acc r => acc + contrib r a b) 0)
              else Option.none⟩, sF)) ∧
    (pmRows s gid = [] → summarize_payments g s = .ok (zeroMat ms, s)) := by
  have hretr := retrieve_payments_ok s gid ms hrows
  constructor
  · obtain ⟨sA, hfoldA, hpA, hgA, hhA⟩ := payments_fold_ok s gid ms (pmRows s gid)
      s [] hrows rfl rfl (fun x => rfl)
    have hGP : Group.payments g s =
        .ok ((pmRows s gid).map
          (fun r => (⟨dictOf r, rowPaidFor r⟩ : REntity)), sA) := by
      unfold Group.payments
      rw [hid, hretr, ebind_ok, hfoldA]
      rfl
    have hGWFA : GroupWF sA gid name mstr ms :=
      GroupWF_of_tbl_eq s sA gid name mstr ms hgA hpA hg
    obtain ⟨tF, hfoldB, hwB⟩ := summarize_fold s gid name mstr ms (pmRows s gid)
      sA (fun a b => 0) hrows hGWFA
    refine ⟨tF, ?_⟩
    unfold summarize_payments
    rw [hGP, ebind_ok, hrels]
    exact hfoldB
  · intro hnil
    rw [hnil] at hretr
    have hGP : Group.payments g s = .ok ([], s) := by
      unfold Group.payments
      rw [hid, hretr, ebind_ok]
      rfl
    unfold summarize_payments
    rw [hGP, ebind_ok, hrels]
    rfl

theorem claim_C7_witness :
    (∃ sF, summarize_payments GAB S6 =
        .ok (⟨["p1", "p2"], ["p1", "p2"], fun a b =>
              if a ∈ ["p1", "p2"] ∧ b ∈ ["p1", "p2"]
              then some ((pmRows S6 "g1").foldl
                (fun acc r => acc + contrib r a b) 0)
              else Option.none⟩, sF)) ∧
    (pmRows S6 "g1" = [] → summarize_payments GAB S6 = .ok (zeroMat ["p1", "p2"], S6)) :=
  claim_C7 S6 "g1" "Trip" "p1;p2" ["p1", "p2"] GAB
    (by decide) (by decide) (by decide) (by decide)

end PT
